import Mathlib

/-!
# Verification of the hex-grid route-planning core ("oracle")

A shallow embedding of the Python sources under `src/` (map model, task and
player state, distance calculator, route repair, simulator, cycle dependency
analysis, shrine-opportunity mining, and the cycle heuristic solver), together
with theorems settling the behavioural claims about them.

Python dictionaries are modelled as association lists (insertion order
preserved, first binding wins on lookup), Python sets as lists with
insert-if-absent, and functions that can raise as `Option`/`Except` valued
functions.  `map_model.Tile` defines the adjacency field `neighbours`, but
several modules read the nonexistent attribute `neighbors` (`tasks.py:304`,
`route_utils.py:63`, `heuristic.py:340`, `distance_utils.py:33` and `:105`);
in Python each such read raises `AttributeError`, modelled here as the
`Except.error` value `attrNeighbors`.  In particular
`DistanceCalculator._build_graphs` iterates `tile.neighbors`, so a calculator
value can only ever be constructed for a grid without tiles, whose graphs are
empty; the calculator methods are modelled accordingly.
-/

deriving instance DecidableEq for Except

namespace Oracle

/-- `map_model.TileType`. -/
inductive TileType where
  | water
  | monster
  | offering
  | statue_source
  | statue_island
  | temple
  | shrine
deriving DecidableEq, Repr

/-- `map_model.Tile` (axial coordinates, neighbour id list, colour tags). -/
structure Tile where
  id : String
  tile_type : TileType
  coords : Int × Int
  neighbours : List String
  colours : List String
deriving DecidableEq, Repr

/-- `Tile.is_water`. -/
def Tile.is_water (t : Tile) : Bool :=
  t.tile_type == TileType.water

/-- `map_model.HexGrid`: tile-id → Tile dictionary plus the hub (Zeus) id. -/
structure HexGrid where
  tiles : List (String × Tile)
  zeus_tile_id : String
deriving DecidableEq, Repr

/-- `HexGrid.get_tile` (dictionary lookup). -/
def HexGrid.get_tile (g : HexGrid) (tile_id : String) : Option Tile :=
  (g.tiles.find? (fun kv => kv.1 == tile_id)).map (fun kv => kv.2)

/-- `HexGrid.get_zeus_tile`. -/
def HexGrid.get_zeus_tile (g : HexGrid) : Option Tile :=
  g.get_tile g.zeus_tile_id

/-- `HexGrid.get_neighbours`: neighbouring tiles that resolve in the grid. -/
def HexGrid.get_neighbours (g : HexGrid) (tile_id : String) : List Tile :=
  match g.get_tile tile_id with
  | none => []
  | some t => t.neighbours.filterMap (fun nb => g.get_tile nb)

/-- `HexGrid.get_adjacent_water_tiles`. -/
def HexGrid.get_adjacent_water_tiles (g : HexGrid) (tile_id : String) : List Tile :=
  (g.get_neighbours tile_id).filter (fun t => t.is_water)

/-- `tasks.STATUE_ITEM`. -/
def STATUE_ITEM : String := "statue"

/-- `tasks.OFFERING_ITEM`. -/
def OFFERING_ITEM : String := "offering"

/-- The text of the `AttributeError` raised by every read of the nonexistent
`Tile.neighbors` attribute (the field is spelt `neighbours`). -/
def attrNeighbors : String :=
  "AttributeError: Tile object has no attribute neighbors"

/-- `tasks.TaskStatus`. -/
inductive TaskStatus where
  | pending
  | completed
  | available
  | blocked
deriving DecidableEq, Repr

/-- `tasks.Task`.  Counters are integers as in Python. -/
structure Task where
  id : String
  tile_id : String
  task_type : TileType
  colour : Option String
  status : TaskStatus
  dependencies : List String
  max_uses : Int
  uses_completed : Int
deriving DecidableEq, Repr

/-- `Task.can_execute`: all dependencies appear in the completed set. -/
def Task.can_execute (t : Task) (completed_tasks : List String) : Bool :=
  t.dependencies.all (fun dep_id => completed_tasks.contains dep_id)

/-- `Task.remaining_uses`. -/
def Task.remaining_uses (t : Task) : Int :=
  t.max_uses - t.uses_completed

/-- `Task.record_execution`. -/
def Task.record_execution (t : Task) : Task :=
  let t := { t with uses_completed := t.uses_completed + 1 }
  if t.remaining_uses ≤ 0 then { t with status := TaskStatus.completed }
  else { t with status := TaskStatus.pending }

/-- `tasks.CargoItem`. -/
structure CargoItem where
  item_type : String
  colour : Option String
deriving DecidableEq, Repr

/-- `tasks.PlayerState`.  `completed_task_ids` is a Python set, modelled as a
list extended only by insert-if-absent. -/
structure PlayerState where
  current_tile_id : String
  total_moves : Nat
  total_turns : Nat
  cargo : List CargoItem
  completed_task_ids : List String
  shrines_built : List String
deriving DecidableEq, Repr

/-- Fresh `PlayerState(current_tile_id=...)` with the dataclass defaults. -/
def PlayerState.init (tile_id : String) : PlayerState :=
  { current_tile_id := tile_id, total_moves := 0, total_turns := 0,
    cargo := [], completed_task_ids := [], shrines_built := [] }

/-- `PlayerState.execute_move`: advance position and counters; every move that
makes the cumulative count divisible by 3 also advances the turn counter. -/
def PlayerState.execute_move (p : PlayerState) (to_tile_id : String) (moves : Nat) :
    PlayerState :=
  let p := { p with current_tile_id := to_tile_id, total_moves := p.total_moves + moves }
  if p.total_moves % 3 = 0 then { p with total_turns := p.total_turns + 1 } else p

/-- `PlayerState.cargo_capacity`. -/
def PlayerState.cargo_capacity (_p : PlayerState) : Nat := 2

/-- `PlayerState.cargo_space_remaining`. -/
def PlayerState.cargo_space_remaining (p : PlayerState) : Nat :=
  p.cargo_capacity - p.cargo.length

/-- `PlayerState.cargo_full`. -/
def PlayerState.cargo_full (p : PlayerState) : Bool :=
  p.cargo_space_remaining == 0

/-- `PlayerState.add_cargo`: store the item unless the hold is full; the Bool
is the Python return value. -/
def PlayerState.add_cargo (p : PlayerState) (item : CargoItem) : PlayerState × Bool :=
  if p.cargo_full then (p, false)
  else ({ p with cargo := p.cargo ++ [item] }, true)

/-- Matching test used by `PlayerState.remove_cargo` / `count_cargo`. -/
def cargoMatches (item : CargoItem) (item_type : String) (colour : Option String) : Bool :=
  item.item_type == item_type && (colour.isNone || item.colour == colour)

/-- Remove the first matching item from a cargo list (`none` when absent). -/
def removeFirstCargo : List CargoItem → String → Option String → Option (List CargoItem)
  | [], _, _ => none
  | item :: rest, item_type, colour =>
    if cargoMatches item item_type colour then some rest
    else (removeFirstCargo rest item_type colour).map (fun r => item :: r)

/-- `PlayerState.remove_cargo`. -/
def PlayerState.remove_cargo (p : PlayerState) (item_type : String)
    (colour : Option String) : PlayerState × Bool :=
  match removeFirstCargo p.cargo item_type colour with
  | some rest => ({ p with cargo := rest }, true)
  | none => (p, false)

/-- `PlayerState.count_cargo`. -/
def PlayerState.count_cargo (p : PlayerState) (item_type : String)
    (colour : Option String) : Nat :=
  (p.cargo.filter (fun item => cargoMatches item item_type colour)).length

/-- `PlayerState.can_deliver_statue`. -/
def PlayerState.can_deliver_statue (p : PlayerState) (colour : Option String) : Bool :=
  0 < p.count_cargo STATUE_ITEM colour

/-- `PlayerState.can_deliver_offerings`. -/
def PlayerState.can_deliver_offerings (p : PlayerState) (colour : Option String) : Bool :=
  0 < p.count_cargo OFFERING_ITEM colour

/-- Python set insertion (add-if-absent, preserving insertion order). -/
def insertSet {α : Type} [DecidableEq α] (s : List α) (x : α) : List α :=
  if x ∈ s then s else s ++ [x]

/-- `PlayerState.complete_task`: record the id, then apply the cargo effect of
the task kind; `none` models the `RuntimeError` raised when the effect is
impossible. -/
def PlayerState.complete_task (p : PlayerState) (task : Task) : Option PlayerState :=
  let p := { p with completed_task_ids := insertSet p.completed_task_ids task.id }
  match task.task_type with
  | TileType.statue_source =>
    match p.add_cargo ⟨STATUE_ITEM, task.colour⟩ with
    | (p2, true) => some p2
    | (_, false) => none
  | TileType.statue_island =>
    match p.remove_cargo STATUE_ITEM task.colour with
    | (p2, true) => some p2
    | (_, false) => none
  | TileType.offering =>
    match p.add_cargo ⟨OFFERING_ITEM, task.colour⟩ with
    | (p2, true) => some p2
    | (_, false) => none
  | TileType.temple =>
    match p.remove_cargo OFFERING_ITEM task.colour with
    | (p2, true) => some p2
    | (_, false) => none
  | _ => some p

/-- `PlayerState.build_shrine`. -/
def PlayerState.build_shrine (p : PlayerState) (tile_id : String) : PlayerState :=
  { p with shrines_built := p.shrines_built ++ [tile_id] }

/-- `tasks.TaskManager` (the solver-relevant state; its `grid` reference is
passed explicitly to the methods that use it).  `tasks` and `tasks_by_tile`
share mutable `Task` objects in Python; here `tasks` is the single store and
`tasks_by_tile` holds task ids resolved through it. -/
structure TaskManager where
  tasks : List (String × Task)
  tasks_by_tile : List (String × List String)
  selected_colours : List String
  required_shrine_count : Nat
  scheduled_shrines : List String
  completed_shrines : List String
deriving DecidableEq, Repr

/-- `TaskManager.get_tasks_for_tile` (live task objects for a tile). -/
def TaskManager.get_tasks_for_tile (tm : TaskManager) (tile_id : String) : List Task :=
  match tm.tasks_by_tile.find? (fun kv => kv.1 == tile_id) with
  | none => []
  | some kv => kv.2.filterMap (fun task_id =>
      (tm.tasks.find? (fun e => e.1 == task_id)).map (fun e => e.2))

/-- `TaskManager.mark_shrine_built` (set insertion). -/
def TaskManager.mark_shrine_built (tm : TaskManager) (shrine_id : String) : TaskManager :=
  { tm with completed_shrines := insertSet tm.completed_shrines shrine_id }

/-- `TaskManager.remaining_shrine_requirement`. -/
def TaskManager.remaining_shrine_requirement (tm : TaskManager) : Nat :=
  let completed := tm.completed_shrines.length
  let scheduled :=
    (tm.scheduled_shrines.filter (fun s => ¬ tm.completed_shrines.contains s)).length
  tm.required_shrine_count - completed - scheduled

/-- `TaskManager.all_tasks_completed`. -/
def TaskManager.all_tasks_completed (tm : TaskManager) : Bool :=
  tm.tasks.all (fun kv => kv.2.status == TaskStatus.completed)

/-- `TaskManager.execute_task`: the uses, dependency and tile-resolution
checks return `False` cleanly, but the adjacency test at `tasks.py:304`
reads `current_tile.neighbors`, an attribute `Tile` does not define, so the
method raises `AttributeError` whenever both the task tile and the player's
current tile resolve; the kind-specific cargo checks and the mutating
success path below that line are unreachable. -/
def TaskManager.execute_task (g : HexGrid) (tm : TaskManager) (task : Task)
    (p : PlayerState) : Except String (TaskManager × PlayerState × Bool) :=
  if task.remaining_uses ≤ 0 then Except.ok (tm, p, false)
  else if ¬ task.can_execute p.completed_task_ids then Except.ok (tm, p, false)
  else
    match g.get_tile task.tile_id with
    | none => Except.ok (tm, p, false)
    | some _task_tile =>
      match g.get_tile p.current_tile_id with
      | none => Except.ok (tm, p, false)
      | some _current_tile => Except.error attrNeighbors

/-! ## Distance calculator (`distance_utils.DistanceCalculator`)

`DistanceCalculator.__init__` runs `_build_graphs`, which iterates
`tile.neighbors` over every tile of the grid (`distance_utils.py:33`) and
therefore raises `AttributeError` as soon as the grid has a tile.  A
calculator value consequently exists only for the tile-less grid, whose
graphs are empty, so every path or distance query on it hits the
`NodeNotFound` branch and yields `None`.  The methods below model the only
calls the program can make: on the empty grid they return `none`/`[]`, and
on any other grid they stand for the construction-time `AttributeError`. -/

/-- `DistanceCalculator._build_graphs`: raises on the first tile's
`neighbors` read; only the empty grid builds (empty) graphs. -/
def build_graphs (g : HexGrid) : Except String Unit :=
  if g.tiles.isEmpty then Except.ok () else Except.error attrNeighbors

/-- `DistanceCalculator.get_shortest_path` behind the construction guard:
for the empty grid every endpoint is missing from the (empty) selected
graph, so the query returns `None`. -/
def get_shortest_path (g : HexGrid) (from_tile_id to_tile_id : String) :
    Except String (Option (List String)) := do
  let _ ← build_graphs g
  pure none

/-- `DistanceCalculator.get_shortest_distance`, likewise. -/
def get_shortest_distance (g : HexGrid) (from_tile_id to_tile_id : String) :
    Except String (Option Nat) := do
  let _ ← build_graphs g
  pure none

/-- `DistanceCalculator.find_nearest_water_tiles`: an unresolved task tile
returns `[]`; a resolving one reads `task_tile.neighbors`
(`distance_utils.py:105`) and raises. -/
def find_nearest_water_tiles (g : HexGrid) (task_tile_id : String) :
    Except String (List (String × Nat)) :=
  match g.get_tile task_tile_id with
  | none => Except.ok []
  | some _ => Except.error attrNeighbors

/-! ## Route utilities (`route_utils`) -/

/-- `route_utils.append_path`: extend the route, dropping the path's leading
tile when it duplicates the route's last tile. -/
def append_path (route : List String) (path : Option (List String)) : List String :=
  match path with
  | none => route
  | some p =>
    if p.isEmpty then route
    else if route ≠ [] ∧ route.getLast? = p.head? then route ++ p.tail
    else route ++ p

/-- `route_utils._tiles_adjacent`: an unresolved first tile short-circuits
to `False`; a resolving one reads `tile.neighbors` (`route_utils.py:63`) and
raises. -/
def tiles_adjacent (g : HexGrid) (first second : String) : Except String Bool :=
  match g.get_tile first with
  | none => Except.ok false
  | some _tile => Except.error attrNeighbors

/-- Loop body of `_reroute_via_water` over the land tile's water neighbours
(`some` models returning `True` after extending the route, `none` returning
`False`). -/
def rerouteLoop (g : HexGrid) (route : List String) (current_tile : String) :
    List Tile → Except String (Option (List String))
  | [] => Except.ok none
  | nb :: rest => do
    let bridge ← get_shortest_path g current_tile nb.id
    match bridge with
    | some b =>
      if b.isEmpty then rerouteLoop g route current_tile rest
      else Except.ok (some (append_path route (some b)))
    | none => rerouteLoop g route current_tile rest

/-- `route_utils._reroute_via_water`. -/
def reroute_via_water (g : HexGrid) (route : List String)
    (current_tile land_tile : String) : Except String (Option (List String)) :=
  rerouteLoop g route current_tile (g.get_adjacent_water_tiles land_tile)

/-- The guard `next_obj and not next_obj.is_water() and next_tile != zeus` of
`repair_route` (false when the tile does not resolve, by short-circuit). -/
def isLandNonZeus (g : HexGrid) (tile_id : String) : Bool :=
  match g.get_tile tile_id with
  | some t => !t.is_water && tile_id != g.zeus_tile_id
  | none => false

/-- One step of the `repair_route` scan over `route[1:]`; `Except.error`
carries both the raised `ValueError`s and the `AttributeError` that the
adjacency check and the calculator calls raise. -/
def repairStep (g : HexGrid) (repaired : List String) (next_tile : String) :
    Except String (List String) :=
  let current_tile := repaired.getLastD ""
  if next_tile = current_tile then Except.ok repaired
  else if isLandNonZeus g next_tile then do
    let rerouted ← reroute_via_water g repaired current_tile next_tile
    match rerouted with
    | some extended => Except.ok extended
    | none =>
      Except.error ("Route includes land tile " ++ next_tile ++
        " that is unreachable from " ++ current_tile)
  else do
    let adj ← tiles_adjacent g current_tile next_tile
    if adj then Except.ok (repaired ++ [next_tile])
    else do
      let bridge ← get_shortest_path g current_tile next_tile
      match bridge with
      | some b =>
        if b.isEmpty then
          Except.error ("No adjacent path from " ++ current_tile ++ " to " ++ next_tile)
        else Except.ok (append_path repaired (some b))
      | none =>
        Except.error ("No adjacent path from " ++ current_tile ++ " to " ++ next_tile)

/-- The `repair_route` loop over the remaining tiles. -/
def repairAux (g : HexGrid) : List String → List String → Except String (List String)
  | repaired, [] => Except.ok repaired
  | repaired, next_tile :: rest => do
    let repaired2 ← repairStep g repaired next_tile
    repairAux g repaired2 rest

/-- `route_utils.repair_route`: keep the first tile, then splice bridges so
consecutive tiles are adjacent, dropping non-hub land tiles in favour of an
adjacent water approach. -/
def repair_route (g : HexGrid) (route : List String) : Except String (List String) :=
  match route with
  | [] => Except.ok []
  | r0 :: rest => repairAux g [r0] rest

/-! ## Simulator (`simulator.RouteSimulator` and `simulator_models`) -/

/-- `simulator_models.SimulationStep` (the unused `player_state_snapshot`
field, never written by the simulator, is omitted). -/
structure SimulationStep where
  step_number : Nat
  current_tile_id : String
  action_type : String
  action_target : Option String
  moves_used : Nat
  turn_number : Nat
deriving DecidableEq, Repr

/-- `simulator_models.SimulationResult`. -/
structure SimulationResult where
  success : Bool
  total_moves : Nat
  total_turns : Nat
  steps : List SimulationStep
  final_player_state : PlayerState
  completed_tasks : List String
  shrines_built : List String
  errors : List String
deriving DecidableEq, Repr

/-- `RouteSimulator._error_result`. -/
def error_result (message : String) : SimulationResult :=
  { success := false, total_moves := 0, total_turns := 0, steps := [],
    final_player_state := PlayerState.init "", completed_tasks := [],
    shrines_built := [], errors := [message] }

/-- An error `SimulationStep` as built by `_simulate_step`. -/
def errStep (step_number : Nat) (current_tile_id target : String) : SimulationStep :=
  { step_number := step_number, current_tile_id := current_tile_id,
    action_type := "error", action_target := some target,
    moves_used := 0, turn_number := 0 }

/-- The `.value` string of a tile type (Python enum value). -/
def TileType.value : TileType → String
  | TileType.water => "water"
  | TileType.monster => "monster"
  | TileType.offering => "offering"
  | TileType.statue_source => "statue_source"
  | TileType.statue_island => "statue_island"
  | TileType.temple => "temple"
  | TileType.shrine => "shrine"

/-- One iteration of the task loop in `_check_and_execute_tasks`: when the
pending/dependency prefilter passes, `execute_task` runs, and the
`AttributeError` it raises (for any resolving task tile and current tile)
propagates out of the simulation. -/
def tryExecuteTask (g : HexGrid) (nb : String) (task_id : String)
    (p : PlayerState) (tm : TaskManager) (step : SimulationStep) :
    Except String (PlayerState × TaskManager × SimulationStep) :=
  match (tm.tasks.find? (fun e => e.1 == task_id)).map (fun e => e.2) with
  | none => Except.ok (p, tm, step)
  | some task =>
    if task.status == TaskStatus.pending && task.can_execute p.completed_task_ids then do
      let (tm2, p2, success) ← TaskManager.execute_task g tm task p
      if success then
        Except.ok (p2, tm2,
          { step with action_type := "task",
                      action_target := some (task.task_type.value ++ "@" ++ nb) })
      else Except.ok (p2, tm2, step)
    else Except.ok (p, tm, step)

/-- The task loop of `_check_and_execute_tasks` over the snapshot of a tile's
task list (ids resolved against the live store on each iteration). -/
def taskScanTile (g : HexGrid) (nb : String) :
    List String → PlayerState → TaskManager → SimulationStep →
    Except String (PlayerState × TaskManager × SimulationStep)
  | [], p, tm, step => Except.ok (p, tm, step)
  | task_id :: rest, p, tm, step => do
    let (p2, tm2, step2) ← tryExecuteTask g nb task_id p tm step
    taskScanTile g nb rest p2 tm2 step2

/-- The neighbour loop of `_check_and_execute_tasks` (skips water and
unresolvable neighbours). -/
def taskScanNeighbours (g : HexGrid) :
    List String → PlayerState → TaskManager → SimulationStep →
    Except String (PlayerState × TaskManager × SimulationStep)
  | [], p, tm, step => Except.ok (p, tm, step)
  | nb :: rest, p, tm, step =>
    match g.get_tile nb with
    | none => taskScanNeighbours g rest p tm step
    | some nt =>
      if nt.is_water then taskScanNeighbours g rest p tm step
      else do
        let ids := (tm.get_tasks_for_tile nb).map (fun t => t.id)
        let (p2, tm2, step2) ← taskScanTile g nb ids p tm step
        taskScanNeighbours g rest p2 tm2 step2

/-- `RouteSimulator._check_and_execute_tasks`. -/
def check_and_execute_tasks (g : HexGrid) (current_tile_id : String)
    (p : PlayerState) (tm : TaskManager) (step : SimulationStep) :
    Except String (PlayerState × TaskManager × SimulationStep) :=
  match g.get_tile current_tile_id with
  | none => Except.ok (p, tm, step)
  | some current_tile => taskScanNeighbours g current_tile.neighbours p tm step

/-- The neighbour loop of `_check_and_build_shrines`. -/
def shrineScan (g : HexGrid) (shrine_positions : List String) :
    List String → PlayerState → TaskManager → SimulationStep →
    PlayerState × TaskManager × SimulationStep
  | [], p, tm, step => (p, tm, step)
  | nb :: rest, p, tm, step =>
    match g.get_tile nb with
    | none => shrineScan g shrine_positions rest p tm step
    | some nt =>
      if nt.tile_type == TileType.shrine && shrine_positions.contains nb &&
          !p.shrines_built.contains nb then
        shrineScan g shrine_positions rest (p.build_shrine nb) (tm.mark_shrine_built nb)
          { step with action_type := "shrine", action_target := some ("shrine@" ++ nb) }
      else shrineScan g shrine_positions rest p tm step

/-- `RouteSimulator._check_and_build_shrines`. -/
def check_and_build_shrines (g : HexGrid) (current_tile_id : String)
    (shrine_positions : List String) (p : PlayerState) (tm : TaskManager)
    (step : SimulationStep) : PlayerState × TaskManager × SimulationStep :=
  match g.get_tile current_tile_id with
  | none => (p, tm, step)
  | some current_tile => shrineScan g shrine_positions current_tile.neighbours p tm step

/-- `RouteSimulator._simulate_step`: validate the move (tile existence,
adjacency, water-or-Zeus destination), then execute it and fire adjacent
tasks and shrine builds. -/
def simulate_step (g : HexGrid) (tm : TaskManager) (from_tile_id to_tile_id : String)
    (p : PlayerState) (shrine_positions : List String) (step_number : Nat) :
    Except String (SimulationStep × PlayerState × TaskManager) :=
  match g.get_tile from_tile_id, g.get_tile to_tile_id with
  | some from_tile, some to_tile =>
    if ¬ from_tile.neighbours.contains to_tile_id then
      Except.ok (errStep step_number from_tile_id
        ("Tiles " ++ from_tile_id ++ "->" ++ to_tile_id ++ " are not adjacent"), p, tm)
    else if to_tile_id ≠ g.zeus_tile_id ∧ ¬ to_tile.is_water then
      Except.ok (errStep step_number from_tile_id
        ("Move to non-water tile " ++ to_tile_id ++ " is not allowed"), p, tm)
    else do
      let p2 := p.execute_move to_tile_id 1
      let step : SimulationStep :=
        { step_number := step_number, current_tile_id := to_tile_id,
          action_type := "move", action_target := none,
          moves_used := 1, turn_number := p2.total_turns }
      let (p3, tm3, step3) ← check_and_execute_tasks g to_tile_id p2 tm step
      let (p4, tm4, step4) := check_and_build_shrines g to_tile_id shrine_positions p3 tm3 step3
      Except.ok (step4, p4, tm4)
  | _, _ =>
    Except.ok (errStep step_number from_tile_id "Invalid tile in route", p, tm)

/-- Text of an `Optional[str]` in an f-string (`None` when absent). -/
def targetText : Option String → String
  | some s => s
  | none => "None"

/-- The step loop of `simulate_route` (`for i in range(1, len(route))` with a
`break` and one error entry on the first failing step). -/
def simLoop (g : HexGrid) (shrines : List String) :
    String → Nat → List String → PlayerState → TaskManager → List SimulationStep →
    Except String (PlayerState × TaskManager × List SimulationStep × List String)
  | _, _, [], p, tm, steps => Except.ok (p, tm, steps, [])
  | prev, i, to_tile :: rest, p, tm, steps => do
    let (step, p2, tm2) ← simulate_step g tm prev to_tile p shrines i
    if step.action_type == "error" then
      Except.ok (p2, tm2, steps ++ [step],
        ["Step " ++ toString i ++ ": " ++ targetText step.action_target])
    else simLoop g shrines to_tile (i + 1) rest p2 tm2 (steps ++ [step])

/-- `RouteSimulator._validate_final_state`.  The first two checks append
their distinct messages; the inventory check then calls the nonexistent
method `PlayerState.has_item`, so control always aborts with an
`AttributeError` (the shrine-quota check below it is unreachable). -/
def validate_final_state (g : HexGrid) (tm : TaskManager) (_p : PlayerState)
    (route : List String) (errors : List String) : Except String (Bool × List String) := do
  let (success, errors) ←
    match g.get_zeus_tile with
    | some zeus_tile =>
      match route.getLast? with
      | none => Except.error "IndexError: list index out of range"
      | some last =>
        if last ≠ zeus_tile.id then
          pure (false, errors ++ ["Route does not end at Zeus tile"])
        else pure (true, errors)
    | none => pure (true, errors)
  let (_success, _errors) ←
    if ¬ tm.all_tasks_completed then
      let incomplete := (tm.tasks.filter
        (fun kv => kv.2.status != TaskStatus.completed)).map (fun kv => kv.2.tile_id)
      pure (false, errors ++ ["Incomplete tasks: " ++ toString incomplete])
    else pure (success, errors)
  Except.error "AttributeError: PlayerState object has no attribute has_item"

/-- `set(shrine_positions) if shrine_positions else set()`. -/
def shrineSet : Option (List String) → List String
  | some l => l
  | none => []

/-- `RouteSimulator.simulate_route`. -/
def simulate_route (g : HexGrid) (tm : TaskManager) (route : List String)
    (shrine_positions : Option (List String)) : Except String SimulationResult :=
  match route with
  | [] => Except.ok (error_result "Empty route provided")
  | r0 :: rest =>
    match g.get_zeus_tile with
    | none => Except.ok (error_result "Route must start at Zeus tile")
    | some zeus_tile =>
      if r0 ≠ zeus_tile.id then Except.ok (error_result "Route must start at Zeus tile")
      else do
        let p0 := PlayerState.init zeus_tile.id
        let shrine_set := shrineSet shrine_positions
        let (p, tm2, steps, errors) ← simLoop g shrine_set r0 1 rest p0 tm []
        let (success, errors) ←
          if errors.isEmpty then validate_final_state g tm2 p route errors
          else pure (false, errors)
        Except.ok
          { success := success, total_moves := p.total_moves,
            total_turns := p.total_turns, steps := steps,
            final_player_state := p, completed_tasks := p.completed_task_ids,
            shrines_built := p.shrines_built, errors := errors }

/-! ## Cycle dependency analysis (`cycle_dependencies`) -/

/-- `heuristic_models.TaskCycle`. -/
structure TaskCycle where
  tasks : List Task
  center_position : Option String := none
  internal_route : List String := []
  connector_to_next : List String := []
  total_distance : Int := 0
  entry_tile : Option String := none
  exit_tile : Option String := none
  entry_index : Option Nat := none
  exit_index : Option Nat := none
deriving DecidableEq, Repr

/-- Cargo types produced by cycle `i` (`"statue:{colour}"`/`"offering:{colour}"`
for its pickup tasks), as built by `analyze_dependencies`. -/
def cycleProduces (cycles : List TaskCycle) (i : Nat) : List String :=
  match cycles.get? i with
  | none => []
  | some c =>
    c.tasks.foldl (fun acc task =>
      match task.task_type with
      | TileType.statue_source => insertSet acc ("statue:" ++ targetText task.colour)
      | TileType.offering => insertSet acc ("offering:" ++ targetText task.colour)
      | _ => acc) []

/-- Cargo types required by cycle `i` (for its delivery tasks). -/
def cycleRequires (cycles : List TaskCycle) (i : Nat) : List String :=
  match cycles.get? i with
  | none => []
  | some c =>
    c.tasks.foldl (fun acc task =>
      match task.task_type with
      | TileType.statue_island => insertSet acc ("statue:" ++ targetText task.colour)
      | TileType.temple => insertSet acc ("offering:" ++ targetText task.colour)
      | _ => acc) []

/-- The dependency graph of `analyze_dependencies`: cycle `i` depends on every
other cycle producing a cargo type that `i` requires. -/
def dependencyGraph (cycles : List TaskCycle) (i : Nat) : List Nat :=
  (cycleRequires cycles i).foldl (fun acc cargo_type =>
    (List.range cycles.length).foldl (fun acc2 producer_idx =>
      if producer_idx ≠ i ∧ cargo_type ∈ cycleProduces cycles producer_idx then
        insertSet acc2 producer_idx
      else acc2) acc) []

/-- State of Kahn's algorithm in `topological_sort`. -/
structure KahnState where
  inDeg : Nat → Nat
  queue : List Nat
  sorted : List Nat

/-- Decrement the in-degree of each cycle depending on the one just emitted,
queueing those that reach zero. -/
def decrementDependents (st : KahnState) : List Nat → KahnState
  | [] => st
  | d :: rest =>
    let v := st.inDeg d - 1
    decrementDependents
      { st with inDeg := fun j => if j = d then v else st.inDeg j,
                queue := if v = 0 then st.queue ++ [d] else st.queue } rest

/-- Process one sorted batch of ready cycles. -/
def processBatch (rev : Nat → List Nat) (st : KahnState) : List Nat → KahnState
  | [] => st
  | current :: rest =>
    let st2 := decrementDependents { st with sorted := st.sorted ++ [current] } (rev current)
    processBatch rev st2 rest

/-- Insert into an ascending list (for Python's `sorted`). -/
def insertSorted (x : Nat) : List Nat → List Nat
  | [] => [x]
  | y :: ys => if x ≤ y then x :: y :: ys else y :: insertSorted x ys

/-- Ascending insertion sort (Python's `sorted` on a list of indices). -/
def sortNat : List Nat → List Nat
  | [] => []
  | x :: xs => insertSorted x (sortNat xs)

/-- The `while queue` loop of `topological_sort`, with enough fuel to drain
any queue over `n` cycles. -/
def kahnLoop (rev : Nat → List Nat) : Nat → KahnState → List Nat
  | 0, st => st.sorted
  | fuel + 1, st =>
    if st.queue.isEmpty then st.sorted
    else
      let batch := sortNat st.queue
      kahnLoop rev fuel (processBatch rev { st with queue := [] } batch)

/-- The set of cycles that depend on `j` (`reverse_graph[j]`); a Python set is
iterated in unspecified order, which only affects the order of queue appends
within one round, and every round is sorted before processing, so ascending
order is an equivalent model. -/
def reverseGraph (cycles : List TaskCycle) (j : Nat) : List Nat :=
  (List.range cycles.length).filter (fun i => j ∈ dependencyGraph cycles i)

/-- The index sequence emitted by Kahn's algorithm in `topological_sort`. -/
def kahnIndices (cycles : List TaskCycle) : List Nat :=
  let n := cycles.length
  kahnLoop (reverseGraph cycles) (n + 1)
    { inDeg := fun i => (dependencyGraph cycles i).length,
      queue := (List.range n).filter (fun i => (dependencyGraph cycles i).length = 0),
      sorted := [] }

/-- `CycleDependencyAnalyzer.topological_sort`: Kahn's algorithm in sorted
batches; on a cyclic dependency graph (not all cycles emitted) fall back to
the original order. -/
def topological_sort (cycles : List TaskCycle) : List TaskCycle :=
  if cycles.isEmpty then []
  else
    let sorted_indices := kahnIndices cycles
    if sorted_indices.length ≠ cycles.length then cycles
    else sorted_indices.filterMap (fun i => cycles.get? i)

/-! ## Shrine opportunity mining (`shrine_models`, `shrine_logic`) -/

/-- `shrine_models.ShrineOpportunity`. -/
structure ShrineOpportunity where
  shrine_tile_id : String
  route_position : Nat
  detour_cost : Nat
  wasted_moves_used : Nat
deriving DecidableEq, Repr

/-- `ShrineOpportunity.efficiency_score`: `float("inf")` (modelled as `⊤`)
when the detour is free, else wasted-moves-used / detour-cost. -/
def ShrineOpportunity.efficiency_score (o : ShrineOpportunity) : WithTop Rat :=
  if o.detour_cost = 0 then ⊤
  else ((o.wasted_moves_used : Rat) / (o.detour_cost : Rat) : Rat)

/-- The water-access loop of `find_shrine_opportunities` for one shrine at
one route index (dead code behind the calculator guard: every distance the
only constructible calculator can return is `None`). -/
def oppsAtAccess (g : HexGrid) (current_pos next_pos : String)
    (moves_to_next wasted_moves : Nat) (shrine_id : String) (index : Nat) :
    List (String × Nat) → Except String (List ShrineOpportunity)
  | [] => Except.ok []
  | (water_pos, _) :: rest => do
    let to_shrine ← get_shortest_distance g current_pos water_pos
    let from_shrine ← get_shortest_distance g water_pos next_pos
    match to_shrine, from_shrine with
    | some ts, some fs => do
      let tail ← oppsAtAccess g current_pos next_pos moves_to_next wasted_moves
        shrine_id index rest
      let total_detour : Int := (ts : Int) + (fs : Int) - (moves_to_next : Int)
      let opp : ShrineOpportunity :=
        { shrine_tile_id := shrine_id, route_position := index,
          detour_cost := (max 0 total_detour).toNat,
          wasted_moves_used := min wasted_moves (ts + fs) }
      if total_detour ≤ (wasted_moves : Int) then Except.ok (opp :: tail)
      else Except.ok tail
    | _, _ =>
      oppsAtAccess g current_pos next_pos moves_to_next wasted_moves shrine_id index rest

/-- The candidate-shrine loop of `find_shrine_opportunities` at one route
index. -/
def oppsAtShrines (g : HexGrid) (current_pos next_pos : String)
    (moves_to_next wasted_moves : Nat) (index : Nat)
    (accesses : List (String × List (String × Nat))) :
    List Tile → Except String (List ShrineOpportunity)
  | [] => Except.ok []
  | shrine :: rest => do
    let access := ((accesses.find? (fun kv => kv.1 == shrine.id)).map
      (fun kv => kv.2)).getD []
    let here ← oppsAtAccess g current_pos next_pos moves_to_next wasted_moves
      shrine.id index access
    let tail ← oppsAtShrines g current_pos next_pos moves_to_next wasted_moves
      index accesses rest
    Except.ok (here ++ tail)

/-- The `for index in range(len(route) - 1)` loop of
`find_shrine_opportunities`. -/
def oppsLoop (g : HexGrid) (route : List String) (shrine_candidates : List Tile)
    (accesses : List (String × List (String × Nat))) :
    List Nat → Except String (List ShrineOpportunity)
  | [] => Except.ok []
  | index :: rest => do
    let current_pos := route.getD index ""
    let next_pos := route.getD (index + 1) ""
    let mtn ← get_shortest_distance g current_pos next_pos
    match mtn with
    | none => oppsLoop g route shrine_candidates accesses rest
    | some moves_to_next =>
      let remaining_moves := 3 - (index % 3 + 1)
      if remaining_moves ≤ moves_to_next then
        oppsLoop g route shrine_candidates accesses rest
      else do
        let here ← oppsAtShrines g current_pos next_pos moves_to_next
          (remaining_moves - moves_to_next) index accesses shrine_candidates
        let tail ← oppsLoop g route shrine_candidates accesses rest
        Except.ok (here ++ tail)

/-- `shrine_logic.find_shrine_opportunities`: precompute each candidate's
water access (raising on the first resolving shrine tile), then scan every
consecutive route pair. -/
def find_shrine_opportunities (g : HexGrid) (route : List String)
    (shrine_candidates : List Tile) : Except String (List ShrineOpportunity) := do
  let shrine_water_access ← shrine_candidates.foldlM (fun acc shrine => do
    let access ← find_nearest_water_tiles g shrine.id
    pure (acc ++ [(shrine.id, access)])) ([] : List (String × List (String × Nat)))
  oppsLoop g route shrine_candidates shrine_water_access
    (List.range (route.length - 1))

/-! ## Cycle heuristic solver (`heuristic.CycleHeuristic`)

`CycleHeuristic.__init__` constructs `DistanceCalculator(grid)`, so for any
grid with a tile the solver cannot even be instantiated: `_build_graphs`
raises `AttributeError` first.  Only the tile-less grid admits a heuristic
object, and there `solve`/`solve_with_custom_cycles` immediately raise
`ValueError` because no Zeus tile resolves.  The branch behind a resolved
Zeus tile is unreachable and is stated for totality only. -/

/-- `CycleHeuristic.solve` (construction of the heuristic included). -/
def solve (g : HexGrid) (tm : TaskManager) : Except String (List String) := do
  let _ ← build_graphs g
  match g.get_zeus_tile with
  | none => Except.error "Zeus tile not configured on grid"
  | some zeus_tile =>
    if (tm.tasks.map (fun kv => kv.2)).isEmpty then Except.ok [zeus_tile.id]
    else Except.error attrNeighbors

/-- `CycleHeuristic.solve_with_custom_cycles` (construction included). -/
def solve_with_custom_cycles (g : HexGrid) (tm : TaskManager)
    (_cycle_tile_ids : List (List String)) : Except String (List String) := do
  let _ ← build_graphs g
  match g.get_zeus_tile with
  | none => Except.error "Zeus tile not configured on grid"
  | some _zeus_tile => Except.error attrNeighbors

/-! ## Predicates and concrete instances used by the claim theorems -/

/-- The move rules checked by `_simulate_step` (and listed in the spec):
both tiles resolve, the destination is listed among the source's neighbours,
and the destination is water or the hub.  A `true` value marks a violation. -/
def moveViolation (g : HexGrid) (from_tile_id to_tile_id : String) : Bool :=
  match g.get_tile from_tile_id, g.get_tile to_tile_id with
  | some from_tile, some to_tile =>
    !from_tile.neighbours.contains to_tile_id ||
      (to_tile_id != g.zeus_tile_id && !to_tile.is_water)
  | _, _ => true

/-- The error text `_simulate_step` attaches to a violating move (checks in
source order: existence, adjacency, water-or-hub). -/
def stepErrorTarget (g : HexGrid) (from_tile_id to_tile_id : String) : String :=
  match g.get_tile from_tile_id, g.get_tile to_tile_id with
  | some from_tile, some _ =>
    if ¬ from_tile.neighbours.contains to_tile_id then
      "Tiles " ++ from_tile_id ++ "->" ++ to_tile_id ++ " are not adjacent"
    else "Move to non-water tile " ++ to_tile_id ++ " is not allowed"
  | _, _ => "Invalid tile in route"

/-- The cycle-dependency edge: cycle `i` depends on cycle `j`. -/
def depEdge (cycles : List TaskCycle) (i j : Nat) : Prop :=
  j ∈ dependencyGraph cycles i

/-- The dependency graph contains a true (directed) cycle. -/
def HasDepCycle (cycles : List TaskCycle) : Prop :=
  ∃ i, Relation.TransGen (depEdge cycles) i i

instance (cycles : List TaskCycle) (i j : Nat) : Decidable (depEdge cycles i j) :=
  inferInstanceAs (Decidable (j ∈ dependencyGraph cycles i))

/-- Invariant of the Kahn states reached by `topological_sort` (without the
queue-completeness clause): the emitted and queued indices are distinct,
in-range cycle indices; `inDeg` counts the unemitted dependencies; queued
cycles have all dependencies emitted; and every emitted cycle's dependencies
were emitted before it. -/
def KOK0 (cycles : List TaskCycle) (st : KahnState) : Prop :=
  st.sorted.Nodup ∧
  st.queue.Nodup ∧
  (∀ d ∈ st.queue, d ∉ st.sorted) ∧
  (∀ d ∈ st.sorted, d < cycles.length) ∧
  (∀ d ∈ st.queue, d < cycles.length) ∧
  (∀ d, d < cycles.length →
    st.inDeg d = ((dependencyGraph cycles d).filter
      (fun c => ¬ c ∈ st.sorted)).length) ∧
  (∀ d ∈ st.queue, ∀ c ∈ dependencyGraph cycles d, c ∈ st.sorted) ∧
  (∀ (k : Nat) (hk : k < st.sorted.length),
    ∀ j ∈ dependencyGraph cycles (st.sorted.get ⟨k, hk⟩), j ∈ st.sorted.take k)

/-- Full Kahn invariant: `KOK0` plus queue completeness (an unemitted cycle
with no unemitted dependency is queued). -/
def KOK (cycles : List TaskCycle) (st : KahnState) : Prop :=
  KOK0 cycles st ∧
  (∀ d, d < cycles.length → d ∉ st.sorted → st.inDeg d = 0 → d ∈ st.queue)

/-! Concrete grids, tasks and cycles used for witnesses and
counterexamples. -/

/-- Water tile `w1` of the repair counterexample grid. -/
def tileW1 : Tile := ⟨"w1", TileType.water, (0, 0), ["L"], []⟩

/-- Land tile `L` of the repair counterexample grid. -/
def tileL : Tile := ⟨"L", TileType.monster, (1, 0), ["w1", "w2"], []⟩

/-- Water tile `w2` of the repair counterexample grid. -/
def tileW2 : Tile := ⟨"w2", TileType.water, (2, 0), ["L", "z"], []⟩

/-- Hub tile `z` of the repair counterexample grid. -/
def tileZ : Tile := ⟨"z", TileType.temple, (3, 0), ["w2"], []⟩

/-- A small water/land grid with hub `z` (the C9 witness repairs a constant
route on it). -/
def gridRepair : HexGrid :=
  ⟨[("w1", tileW1), ("L", tileL), ("w2", tileW2), ("z", tileZ)], "z"⟩

/-- Hub of the water-chain grid. -/
def chainZ : Tile := ⟨"z", TileType.temple, (0, 0), ["a"], []⟩

/-- Water tile `a` of the water-chain grid. -/
def chainA : Tile := ⟨"a", TileType.water, (1, 0), ["z", "b"], []⟩

/-- Water tile `b` of the water-chain grid. -/
def chainB : Tile := ⟨"b", TileType.water, (2, 0), ["a", "c"], []⟩

/-- Water tile `c` of the water-chain grid. -/
def chainC : Tile := ⟨"c", TileType.water, (3, 0), ["b", "M"], []⟩

/-- Monster task tile of the water-chain grid. -/
def chainM : Tile := ⟨"M", TileType.monster, (4, 0), ["c"], ["red"]⟩

/-- A symmetric grid: hub `z`, water chain `a - b - c`, monster tile `M`
reachable only from `c`. -/
def gridChain : HexGrid :=
  ⟨[("z", chainZ), ("a", chainA), ("b", chainB), ("c", chainC), ("M", chainM)], "z"⟩

/-- The red monster task on tile `M` of `gridChain`. -/
def taskMonster : Task :=
  ⟨"M:monster:red", "M", TileType.monster, some "red", TaskStatus.pending, [], 1, 0⟩

/-- A task manager holding only `taskMonster`. -/
def tmMonster : TaskManager :=
  ⟨[("M:monster:red", taskMonster)], [("M", ["M:monster:red"])], ["red"], 0, [], []⟩

/-- An empty task manager (no tasks, default shrine requirement). -/
def tmEmpty : TaskManager := ⟨[], [], [], 3, [], []⟩

/-- A cycle containing only a red statue delivery (requires `statue:red`). -/
def cycleRequirer : TaskCycle :=
  { tasks := [⟨"t0", "x", TileType.statue_island, some "red",
      TaskStatus.pending, [], 1, 0⟩] }

/-- A cycle containing only a red statue pickup (produces `statue:red`). -/
def cycleProducer : TaskCycle :=
  { tasks := [⟨"t1", "y", TileType.statue_source, some "red",
      TaskStatus.pending, [], 1, 0⟩] }

/-- Water tiles and a shrine for the C8 counterexample: `w1 - w2` is the
route hop, `w3` hangs off `w1`, and the shrine is reachable only via `w3`. -/
def tileS1 : Tile := ⟨"w1", TileType.water, (0, 0), ["w2", "w3"], []⟩

/-- Water tile `w2` of the shrine counterexample grid. -/
def tileS2 : Tile := ⟨"w2", TileType.water, (1, 0), ["w1"], []⟩

/-- Water tile `w3` of the shrine counterexample grid. -/
def tileS3 : Tile := ⟨"w3", TileType.water, (0, 1), ["w1", "s"], []⟩

/-- The shrine tile of the shrine counterexample grid. -/
def tileShrine : Tile := ⟨"s", TileType.shrine, (1, 1), ["w3"], []⟩

/-- Grid for the C8 failing input: the shrine tile `s` resolves, so the
water-access precompute reads its `neighbors` attribute and raises. -/
def gridShrine : HexGrid :=
  ⟨[("w1", tileS1), ("w2", tileS2), ("w3", tileS3), ("s", tileShrine)], "zz"⟩

/-- The tile-less grid: the only grid for which a `DistanceCalculator` (and
hence a `CycleHeuristic`) can be constructed. -/
def gridEmpty : HexGrid := ⟨[], "z"⟩

/-! ## Supporting lemmas -/

theorem execute_move_one (p : PlayerState) (dst : String) :
    (p.execute_move dst 1).total_moves = p.total_moves + 1 ∧
    (p.execute_move dst 1).total_turns =
      (if (p.total_moves + 1) % 3 = 0 then p.total_turns + 1 else p.total_turns) ∧
    (p.execute_move dst 1).cargo = p.cargo ∧
    (p.execute_move dst 1).current_tile_id = dst := by
  unfold PlayerState.execute_move
  by_cases h : (p.total_moves + 1) % 3 = 0 <;> simp [h]

theorem shrineScan_spec (g : HexGrid) (sh : List String) : ∀ (nbs : List String)
    (p : PlayerState) (tm : TaskManager) (step : SimulationStep),
    ∃ p2 tm2 step2, shrineScan g sh nbs p tm step = (p2, tm2, step2) ∧
      p2.total_moves = p.total_moves ∧ p2.total_turns = p.total_turns ∧
      p2.current_tile_id = p.current_tile_id ∧ p2.cargo = p.cargo ∧
      (step2.action_type = step.action_type ∨ step2.action_type = "shrine") := by
  intro nbs
  induction nbs with
  | nil => intro p tm step; exact ⟨p, tm, step, rfl, rfl, rfl, rfl, rfl, Or.inl rfl⟩
  | cons nb rest ih =>
    intro p tm step
    cases hnb : g.get_tile nb with
    | none =>
      obtain ⟨p2, tm2, step2, h2, hm2, ht2, hc2, hg2, ha2⟩ := ih p tm step
      exact ⟨p2, tm2, step2, by unfold shrineScan; rw [hnb]; exact h2, hm2, ht2, hc2, hg2, ha2⟩
    | some nt =>
      by_cases hcond : (nt.tile_type == TileType.shrine && sh.contains nb &&
          !p.shrines_built.contains nb) = true
      · obtain ⟨p2, tm2, step2, h2, hm2, ht2, hc2, hg2, ha2⟩ :=
          ih (p.build_shrine nb) (tm.mark_shrine_built nb)
            { step with action_type := "shrine", action_target := some ("shrine@" ++ nb) }
        refine ⟨p2, tm2, step2, ?_, hm2, ht2, hc2, hg2, ?_⟩
        · unfold shrineScan
          rw [hnb]
          simp only [hcond, if_true]
          exact h2
        · rcases ha2 with ha2 | ha2
          · rw [ha2]; exact Or.inr rfl
          · exact Or.inr ha2
      · obtain ⟨p2, tm2, step2, h2, hm2, ht2, hc2, hg2, ha2⟩ := ih p tm step
        refine ⟨p2, tm2, step2, ?_, hm2, ht2, hc2, hg2, ha2⟩
        unfold shrineScan
        rw [hnb]
        simp only [hcond, if_false]
        exact h2

theorem check_and_build_shrines_spec (g : HexGrid) (cur : String) (sh : List String)
    (p : PlayerState) (tm : TaskManager) (step : SimulationStep) :
    ∃ p2 tm2 step2, check_and_build_shrines g cur sh p tm step = (p2, tm2, step2) ∧
      p2.total_moves = p.total_moves ∧ p2.total_turns = p.total_turns ∧
      p2.current_tile_id = p.current_tile_id ∧ p2.cargo = p.cargo ∧
      (step2.action_type = step.action_type ∨ step2.action_type = "shrine") := by
  unfold check_and_build_shrines
  cases hcur : g.get_tile cur with
  | none => exact ⟨p, tm, step, rfl, rfl, rfl, rfl, rfl, Or.inl rfl⟩
  | some ct => exact shrineScan_spec g sh ct.neighbours p tm step

theorem simulate_step_violation (g : HexGrid) (tm : TaskManager) (a b : String)
    (p : PlayerState) (sh : List String) (i : Nat)
    (hv : moveViolation g a b = true) :
    simulate_step g tm a b p sh i =
      Except.ok (errStep i a (stepErrorTarget g a b), p, tm) := by
  unfold moveViolation at hv
  unfold simulate_step stepErrorTarget
  cases hfa : g.get_tile a with
  | none => cases hfb : g.get_tile b <;> rfl
  | some fa =>
    cases hfb : g.get_tile b with
    | none => rfl
    | some fb =>
      rw [hfa, hfb] at hv
      dsimp only
      by_cases hcont : b ∈ fa.neighbours
      · simp at hv
        rcases hv with hv | hv
        · exact absurd hcont (by simpa using hv)
        · rw [if_neg (by simp [hcont]), if_pos (by simp [hv.1, hv.2]), if_neg (by simp [hcont])]
      · rw [if_pos (by simp [hcont]), if_pos (by simp [hcont])]

theorem validate_final_state_error (g : HexGrid) (tm : TaskManager) (p : PlayerState)
    (route : List String) (errors : List String) :
    ∃ msg, validate_final_state g tm p route errors = Except.error msg := by
  unfold validate_final_state
  cases g.get_zeus_tile with
  | none =>
    by_cases hc : ¬ tm.all_tasks_completed = true
    · exact ⟨"AttributeError: PlayerState object has no attribute has_item",
        by simp [bind, Except.bind, pure, Except.pure, hc]⟩
    · exact ⟨"AttributeError: PlayerState object has no attribute has_item",
        by simp [bind, Except.bind, pure, Except.pure, hc]⟩
  | some zt =>
    cases route.getLast? with
    | none => exact ⟨"IndexError: list index out of range", rfl⟩
    | some last =>
      by_cases hl : last ≠ zt.id <;> by_cases hc : ¬ tm.all_tasks_completed = true <;>
        exact ⟨"AttributeError: PlayerState object has no attribute has_item",
          by simp [bind, Except.bind, pure, Except.pure, hl, hc]⟩

theorem simulate_route_ok_cases (g : HexGrid) (tm : TaskManager) (route : List String)
    (sh : Option (List String)) (res : SimulationResult)
    (h : simulate_route g tm route sh = Except.ok res) :
    res = error_result "Empty route provided" ∨
    res = error_result "Route must start at Zeus tile" ∨
    ∃ zt rest p tm2 steps errors, g.get_zeus_tile = some zt ∧ route = zt.id :: rest ∧
      simLoop g (shrineSet sh) zt.id 1 rest
        (PlayerState.init zt.id) tm [] = Except.ok (p, tm2, steps, errors) ∧
      errors ≠ [] ∧
      res = { success := false, total_moves := p.total_moves,
              total_turns := p.total_turns, steps := steps, final_player_state := p,
              completed_tasks := p.completed_task_ids,
              shrines_built := p.shrines_built, errors := errors } := by
  cases route with
  | nil =>
    unfold simulate_route at h
    simp at h
    exact Or.inl h.symm
  | cons r0 rest =>
    unfold simulate_route at h
    cases hz : g.get_zeus_tile with
    | none =>
      rw [hz] at h
      simp at h
      exact Or.inr (Or.inl h.symm)
    | some zt =>
      rw [hz] at h
      dsimp only at h
      by_cases hr0 : r0 = zt.id
      · rw [if_neg (by simp [hr0])] at h
        subst hr0
        rcases hloop : simLoop g (shrineSet sh) zt.id 1 rest
            (PlayerState.init zt.id) tm [] with e | ⟨p, tm2, steps, errors⟩
        · rw [hloop] at h
          simp [bind, Except.bind] at h
        · rw [hloop] at h
          simp only [bind, Except.bind] at h
          by_cases herr : errors.isEmpty = true
          · rw [if_pos herr] at h
            obtain ⟨msg, hval⟩ := validate_final_state_error g tm2 p (zt.id :: rest) errors
            rw [hval] at h
            simp at h
          · rw [if_neg herr] at h
            simp only [pure, Except.pure] at h
            simp at h
            refine Or.inr (Or.inr ⟨zt, rest, p, tm2, steps, errors, rfl, rfl, hloop,
              by simpa using herr, h.symm⟩)
      · rw [if_pos (by simp [hr0])] at h
        simp at h
        exact Or.inr (Or.inl h.symm)

/-! ## Claim C3 (code bug) -/

/-- C3: the final-state validation of a simulation whose moves all succeed
does not return a `SimulationResult`: it calls the nonexistent method
`PlayerState.has_item` and aborts with an `AttributeError` (here: the
`Except.error` outcome), already on the one-tile route at the hub with no
tasks configured. -/
theorem simulate_route_validation_crash :
    simulate_route gridChain tmEmpty ["z"] none =
      Except.error "AttributeError: PlayerState object has no attribute has_item" := by
  decide

/-! ## Claim C10 -/

/-- C10: an empty route, or a route whose first tile is not the hub, makes
`simulate_route` return a failed result (success `false`, zero moves and
turns, no steps, a single descriptive error) without simulating anything and
without raising. -/
theorem simulate_route_rejects_invalid_start (g : HexGrid) (tm : TaskManager)
    (route : List String) (shrines : Option (List String)) (zt : Tile)
    (hz : g.get_zeus_tile = some zt)
    (h : route = [] ∨ route.head? ≠ some zt.id) :
    ∃ res, simulate_route g tm route shrines = Except.ok res ∧
      res.success = false ∧ res.total_moves = 0 ∧ res.total_turns = 0 ∧
      res.steps = [] ∧
      (res.errors = ["Empty route provided"] ∨
        res.errors = ["Route must start at Zeus tile"]) := by
  cases route with
  | nil =>
    exact ⟨error_result "Empty route provided", rfl, rfl, rfl, rfl, rfl, Or.inl rfl⟩
  | cons r0 rest =>
    have hne : ¬ r0 = zt.id := by
      rcases h with h | h
      · exact absurd h (by simp)
      · simpa using h
    refine ⟨error_result "Route must start at Zeus tile", ?_, rfl, rfl, rfl, rfl, Or.inr rfl⟩
    unfold simulate_route
    rw [hz]
    simp [hne]

/-- Witness for C10: a route starting away from the hub of `gridChain`. -/
theorem simulate_route_rejects_invalid_start_witness :
    ∃ res, simulate_route gridChain tmEmpty ["a"] none = Except.ok res ∧
      res.success = false ∧ res.total_moves = 0 ∧ res.total_turns = 0 ∧
      res.steps = [] ∧
      (res.errors = ["Empty route provided"] ∨
        res.errors = ["Route must start at Zeus tile"]) :=
  simulate_route_rejects_invalid_start gridChain tmEmpty ["a"] none chainZ
    (by decide) (Or.inr (by decide))

theorem mem_insertSet {α : Type} [DecidableEq α] (s : List α) (x y : α) :
    y ∈ insertSet s x ↔ y ∈ s ∨ y = x := by
  unfold insertSet
  by_cases h : x ∈ s
  · rw [if_pos h]
    constructor
    · exact fun hy => Or.inl hy
    · rintro (hy | rfl)
      · exact hy
      · exact h
  · rw [if_neg h]
    simp

theorem insertSet_nodup {α : Type} [DecidableEq α] (s : List α) (x : α)
    (hs : s.Nodup) : (insertSet s x).Nodup := by
  unfold insertSet
  by_cases h : x ∈ s
  · rw [if_pos h]; exact hs
  · rw [if_neg h]
    rw [List.nodup_append]
    exact ⟨hs, List.nodup_singleton x, fun a ha hb => by
      simp at hb; subst hb; exact h ha⟩

theorem foldl_preserves {α β : Type} (P : α → Prop) (f : α → β → α)
    (hstep : ∀ a b, P a → P (f a b)) :
    ∀ (l : List β) (a : α), P a → P (l.foldl f a) := by
  intro l
  induction l with
  | nil => intro a h; exact h
  | cons b t ih => intro a h; exact ih (f a b) (hstep a b h)

theorem dependencyGraph_nodup (cycles : List TaskCycle) (i : Nat) :
    (dependencyGraph cycles i).Nodup := by
  unfold dependencyGraph
  refine foldl_preserves List.Nodup _ ?_ _ [] List.nodup_nil
  intro acc ct hacc
  refine foldl_preserves List.Nodup _ ?_ _ acc hacc
  intro acc2 p h2
  by_cases hc : p ≠ i ∧ ct ∈ cycleProduces cycles p
  · rw [if_pos hc]; exact insertSet_nodup _ _ h2
  · rw [if_neg hc]; exact h2

theorem mem_innerFold (cycles : List TaskCycle) (i : Nat) (c : String) :
    ∀ (L : List Nat) (acc : List Nat) (x : Nat),
      x ∈ L.foldl (fun acc2 p =>
        if p ≠ i ∧ c ∈ cycleProduces cycles p then insertSet acc2 p else acc2) acc ↔
        x ∈ acc ∨ (x ∈ L ∧ x ≠ i ∧ c ∈ cycleProduces cycles x) := by
  intro L
  induction L with
  | nil => intro acc x; simp
  | cons p rest ih =>
    intro acc x
    rw [List.foldl_cons]
    by_cases hc : p ≠ i ∧ c ∈ cycleProduces cycles p
    · rw [if_pos hc, ih, mem_insertSet]
      constructor
      · rintro ((hx | rfl) | hx)
        · exact Or.inl hx
        · exact Or.inr ⟨by simp, hc.1, hc.2⟩
        · exact Or.inr ⟨by simp [hx.1], hx.2.1, hx.2.2⟩
      · rintro (hx | ⟨hmem, hne, hprod⟩)
        · exact Or.inl (Or.inl hx)
        · rcases List.mem_cons.mp hmem with rfl | hmem2
          · exact Or.inl (Or.inr rfl)
          · exact Or.inr ⟨hmem2, hne, hprod⟩
    · rw [if_neg hc, ih]
      constructor
      · rintro (hx | hx)
        · exact Or.inl hx
        · exact Or.inr ⟨by simp [hx.1], hx.2.1, hx.2.2⟩
      · rintro (hx | ⟨hmem, hne, hprod⟩)
        · exact Or.inl hx
        · rcases List.mem_cons.mp hmem with rfl | hmem2
          · exact absurd ⟨hne, hprod⟩ hc
          · exact Or.inr ⟨hmem2, hne, hprod⟩

theorem mem_outerFold (cycles : List TaskCycle) (i : Nat) :
    ∀ (R : List String) (acc : List Nat) (x : Nat),
      x ∈ R.foldl (fun acc1 c =>
        (List.range cycles.length).foldl (fun acc2 p =>
          if p ≠ i ∧ c ∈ cycleProduces cycles p then insertSet acc2 p else acc2) acc1)
        acc ↔
        x ∈ acc ∨ ∃ c ∈ R, x ∈ List.range cycles.length ∧ x ≠ i ∧
          c ∈ cycleProduces cycles x := by
  intro R
  induction R with
  | nil => intro acc x; simp
  | cons c R ih =>
    intro acc x
    rw [List.foldl_cons, ih, mem_innerFold]
    constructor
    · rintro ((hx | hx) | ⟨c2, hc2, hx⟩)
      · exact Or.inl hx
      · exact Or.inr ⟨c, by simp, hx⟩
      · exact Or.inr ⟨c2, by simp [hc2], hx⟩
    · rintro (hx | ⟨c2, hc2, hx⟩)
      · exact Or.inl (Or.inl hx)
      · rcases List.mem_cons.mp hc2 with rfl | h2
        · exact Or.inl (Or.inr hx)
        · exact Or.inr ⟨c2, h2, hx⟩

theorem mem_dependencyGraph (cycles : List TaskCycle) (i j : Nat) :
    j ∈ dependencyGraph cycles i ↔
      j < cycles.length ∧ j ≠ i ∧
        ∃ c ∈ cycleRequires cycles i, c ∈ cycleProduces cycles j := by
  unfold dependencyGraph
  rw [mem_outerFold]
  simp only [List.mem_range, List.not_mem_nil, false_or]
  tauto

theorem dependencyGraph_lt (cycles : List TaskCycle) (i j : Nat)
    (h : j ∈ dependencyGraph cycles i) : j < cycles.length :=
  ((mem_dependencyGraph cycles i j).mp h).1

theorem dependencyGraph_ne (cycles : List TaskCycle) (i j : Nat)
    (h : j ∈ dependencyGraph cycles i) : j ≠ i :=
  ((mem_dependencyGraph cycles i j).mp h).2.1

theorem cycleRequires_lt (cycles : List TaskCycle) (i : Nat) (c : String)
    (h : c ∈ cycleRequires cycles i) : i < cycles.length := by
  unfold cycleRequires at h
  cases hget : cycles.get? i with
  | none =>
    rw [hget] at h
    simp at h
  | some cy =>
    by_contra hge
    rw [List.get?_eq_none.mpr (by omega)] at hget
    exact Option.noConfusion hget

theorem dependencyGraph_src_lt (cycles : List TaskCycle) (i j : Nat)
    (h : j ∈ dependencyGraph cycles i) : i < cycles.length := by
  obtain ⟨_, _, c, hc, _⟩ := (mem_dependencyGraph cycles i j).mp h
  exact cycleRequires_lt cycles i c hc

theorem mem_reverseGraph (cycles : List TaskCycle) (c d : Nat) :
    d ∈ reverseGraph cycles c ↔ d < cycles.length ∧ c ∈ dependencyGraph cycles d := by
  unfold reverseGraph
  rw [List.mem_filter]
  simp [List.mem_range]

theorem reverseGraph_nodup (cycles : List TaskCycle) (c : Nat) :
    (reverseGraph cycles c).Nodup :=
  (List.nodup_range _).filter _

theorem insertSorted_perm (x : Nat) : ∀ l : List Nat,
    List.Perm (insertSorted x l) (x :: l) := by
  intro l
  induction l with
  | nil => exact List.Perm.refl _
  | cons y ys ih =>
    unfold insertSorted
    by_cases h : x ≤ y
    · rw [if_pos h]
    · rw [if_neg h]
      exact (List.Perm.cons y ih).trans (List.Perm.swap x y ys)

theorem sortNat_perm : ∀ l : List Nat, List.Perm (sortNat l) l := by
  intro l
  induction l with
  | nil => exact List.Perm.refl _
  | cons x xs ih =>
    unfold sortNat
    exact (insertSorted_perm x (sortNat xs)).trans (List.Perm.cons x ih)

theorem length_filter_append_singleton (S : List Nat) (c : Nat) (hc : c ∉ S) :
    ∀ l : List Nat, l.Nodup →
    (l.filter (fun x => ¬ x ∈ S ++ [c])).length =
      (l.filter (fun x => ¬ x ∈ S)).length - (if c ∈ l then 1 else 0) := by
  intro l
  induction l with
  | nil => intro _; simp
  | cons a t ih =>
    intro hnd
    rw [List.nodup_cons] at hnd
    obtain ⟨hat, hnd2⟩ := hnd
    have ih2 := ih hnd2
    rw [List.filter_cons, List.filter_cons]
    by_cases hac : a = c
    · subst hac
      rw [if_neg (by simp), if_pos (by simpa using hc), if_pos (by simp)]
      rw [List.length_cons, ih2, if_neg hat]
      omega
    · have hceq : (c ∈ a :: t) ↔ c ∈ t := by
        constructor
        · intro h
          rcases List.mem_cons.mp h with h | h
          · exact absurd h.symm hac
          · exact h
        · exact fun h => List.mem_cons_of_mem a h
      by_cases haS : a ∈ S
      · rw [if_neg (by simp [haS]), if_neg (by simp [haS]), ih2,
          if_congr hceq rfl rfl]
      · rw [if_pos (by simp [haS, hac]), if_pos (by simp [haS]),
          List.length_cons, List.length_cons, ih2, if_congr hceq rfl rfl]
        by_cases hct : c ∈ t
        · have hcmem : c ∈ t.filter (fun x => ¬ x ∈ S) := by
            rw [List.mem_filter]
            exact ⟨hct, by simpa using hc⟩
          have := List.length_pos_of_mem hcmem
          simp only [if_pos hct]
          omega
        · simp only [if_neg hct]
          omega

theorem decrementDependents_spec : ∀ (L : List Nat) (st : KahnState), L.Nodup →
    (decrementDependents st L).sorted = st.sorted ∧
    (∀ j, (decrementDependents st L).inDeg j =
      if j ∈ L then st.inDeg j - 1 else st.inDeg j) ∧
    (decrementDependents st L).queue =
      st.queue ++ L.filter (fun d => st.inDeg d - 1 = 0) := by
  intro L
  induction L with
  | nil =>
    intro st _
    exact ⟨rfl, fun j => by simp [decrementDependents], by simp [decrementDependents]⟩
  | cons d rest ih =>
    intro st hnd
    rw [List.nodup_cons] at hnd
    obtain ⟨hdr, hnd2⟩ := hnd
    unfold decrementDependents
    dsimp only
    obtain ⟨ihs, ihi, ihq⟩ := ih { st with
      inDeg := fun j => if j = d then st.inDeg d - 1 else st.inDeg j,
      queue := if st.inDeg d - 1 = 0 then st.queue ++ [d] else st.queue } hnd2
    refine ⟨ihs, ?_, ?_⟩
    · intro j
      rw [ihi j]
      dsimp only
      by_cases hjr : j ∈ rest
      · have hjd : ¬ j = d := fun hh => hdr (hh ▸ hjr)
        rw [if_pos hjr, if_neg hjd, if_pos (by simp [hjr])]
      · rw [if_neg hjr]
        by_cases hjd : j = d
        · subst hjd
          rw [if_pos rfl, if_pos (by simp)]
        · rw [if_neg hjd, if_neg (by simp [hjd, hjr])]
    · rw [ihq]
      dsimp only
      have hcong : rest.filter
          (fun e => (if e = d then st.inDeg d - 1 else st.inDeg e) - 1 = 0) =
          rest.filter (fun e => st.inDeg e - 1 = 0) :=
        List.filter_congr (fun e he => by
          rw [if_neg (fun hh => hdr (by rw [← hh]; exact he))])
      rw [hcong, List.filter_cons]
      by_cases hv : st.inDeg d - 1 = 0
      · rw [if_pos hv, if_pos (by simp [hv]), List.append_assoc]
        rfl
      · rw [if_neg hv, if_neg (by simp [hv])]

theorem processBatch_ok (cycles : List TaskCycle) : ∀ (batch : List Nat) (st : KahnState),
    KOK0 cycles st →
    (∀ d, d < cycles.length → d ∉ st.sorted → st.inDeg d = 0 →
      d ∈ st.queue ∨ d ∈ batch) →
    batch.Nodup →
    (∀ d ∈ batch, d < cycles.length ∧ d ∉ st.sorted ∧ d ∉ st.queue ∧
      ∀ c ∈ dependencyGraph cycles d, c ∈ st.sorted) →
    KOK cycles (processBatch (reverseGraph cycles) st batch) ∧
    (processBatch (reverseGraph cycles) st batch).sorted = st.sorted ++ batch := by
  intro batch
  induction batch with
  | nil =>
    intro st hok hz _ _
    unfold processBatch
    refine ⟨⟨hok, ?_⟩, by simp⟩
    intro d hd hds hdeg
    rcases hz d hd hds hdeg with h | h
    · exact h
    · simp at h
  | cons c rest ih =>
    intro st hok hz hnd hpre
    obtain ⟨hs_nd, hq_nd, hqs, hs_bd, hq_bd, hdeg, hq_rdy, hord⟩ := hok
    rw [List.nodup_cons] at hnd
    obtain ⟨hcr, hnd2⟩ := hnd
    obtain ⟨hc_lt, hc_ns, hc_nq, hc_deps⟩ := hpre c (by simp)
    unfold processBatch
    dsimp only
    obtain ⟨hds, hdi, hdq⟩ := decrementDependents_spec (reverseGraph cycles c)
      { st with sorted := st.sorted ++ [c] } (reverseGraph_nodup cycles c)
    set st2 := decrementDependents { st with sorted := st.sorted ++ [c] }
      (reverseGraph cycles c) with hst2
    have hSc_nd : (st.sorted ++ [c]).Nodup := by
      rw [List.nodup_append]
      exact ⟨hs_nd, List.nodup_singleton c, fun a ha hb => by
        simp at hb; subst hb; exact hc_ns ha⟩
    have hnewQ : ∀ d ∈ (reverseGraph cycles c).filter
        (fun d => st.inDeg d - 1 = 0),
        d < cycles.length ∧ c ∈ dependencyGraph cycles d ∧ st.inDeg d - 1 = 0 := by
      intro d hd
      rw [List.mem_filter] at hd
      obtain ⟨hd1, hd2⟩ := hd
      rw [mem_reverseGraph] at hd1
      exact ⟨hd1.1, hd1.2, by simpa using hd2⟩
    have hsorted_closed : ∀ d ∈ st.sorted, ∀ j ∈ dependencyGraph cycles d,
        j ∈ st.sorted := by
      intro d hd j hj
      obtain ⟨⟨k, hk⟩, hget⟩ := List.mem_iff_get.mp hd
      exact List.take_subset _ _ (hord k hk j (by rw [hget]; exact hj))
    have hnewQ_not_sorted : ∀ d ∈ (reverseGraph cycles c).filter
        (fun d => st.inDeg d - 1 = 0), d ∉ st.sorted ++ [c] := by
      intro d hd hmem
      obtain ⟨hdlt, hdc, _⟩ := hnewQ d hd
      rcases List.mem_append.mp hmem with hmem | hmem
      · exact hc_ns (hsorted_closed d hmem c hdc)
      · simp at hmem
        subst hmem
        exact (dependencyGraph_ne cycles d d hdc) rfl
    have hnewQ_not_queue : ∀ d ∈ (reverseGraph cycles c).filter
        (fun d => st.inDeg d - 1 = 0), d ∉ st.queue := by
      intro d hd hq
      obtain ⟨_, hdc, _⟩ := hnewQ d hd
      exact hc_ns (hq_rdy d hq c hdc)
    have hok2 : KOK0 cycles st2 := by
      refine ⟨?_, ?_, ?_, ?_, ?_, ?_, ?_, ?_⟩
      · rw [hds]; exact hSc_nd
      · rw [hdq]
        rw [List.nodup_append]
        refine ⟨hq_nd, List.Nodup.filter _ (reverseGraph_nodup cycles c), ?_⟩
        intro a ha hb
        exact hnewQ_not_queue a hb ha
      · rw [hdq, hds]
        intro d hd
        rcases List.mem_append.mp hd with hd | hd
        · intro hmem
          rcases List.mem_append.mp hmem with hmem | hmem
          · exact hqs d hd hmem
          · simp at hmem
            subst hmem
            exact hc_nq hd
        · exact hnewQ_not_sorted d hd
      · rw [hds]
        intro d hd
        rcases List.mem_append.mp hd with hd | hd
        · exact hs_bd d hd
        · simp at hd
          subst hd
          exact hc_lt
      · rw [hdq]
        intro d hd
        rcases List.mem_append.mp hd with hd | hd
        · exact hq_bd d hd
        · exact (hnewQ d hd).1
      · intro d hd
        rw [hdi d, hds]
        rw [length_filter_append_singleton st.sorted c hc_ns
          (dependencyGraph cycles d) (dependencyGraph_nodup cycles d)]
        by_cases hdrev : d ∈ reverseGraph cycles c
        · have hcd : c ∈ dependencyGraph cycles d :=
            ((mem_reverseGraph cycles c d).mp hdrev).2
          rw [if_pos hdrev, if_pos hcd, hdeg d hd]
        · have hcd : c ∉ dependencyGraph cycles d := by
            intro hcd
            exact hdrev ((mem_reverseGraph cycles c d).mpr ⟨hd, hcd⟩)
          rw [if_neg hdrev, if_neg hcd, hdeg d hd]
          omega
      · rw [hdq, hds]
        intro d hd c2 hc2
        rcases List.mem_append.mp hd with hd | hd
        · exact List.mem_append_left _ (hq_rdy d hd c2 hc2)
        · obtain ⟨hdlt, hdc, hdeg0⟩ := hnewQ d hd
          by_cases hc2S : c2 ∈ st.sorted
          · exact List.mem_append_left _ hc2S
          · have hlen : ((dependencyGraph cycles d).filter
                (fun x => ¬ x ∈ st.sorted)).length = 1 := by
              have hle : st.inDeg d ≤ 1 := by omega
              rw [hdeg d hdlt] at hle
              have hcmem : c ∈ (dependencyGraph cycles d).filter
                  (fun x => ¬ x ∈ st.sorted) := by
                rw [List.mem_filter]
                exact ⟨hdc, by simpa using hc_ns⟩
              have := List.length_pos_of_mem hcmem
              omega
            obtain ⟨x, hx⟩ := List.length_eq_one.mp hlen
            have hcx : c = x := by
              have : c ∈ (dependencyGraph cycles d).filter
                  (fun y => ¬ y ∈ st.sorted) := by
                rw [List.mem_filter]
                exact ⟨hdc, by simpa using hc_ns⟩
              rw [hx] at this
              simpa using this
            have hc2x : c2 = x := by
              have : c2 ∈ (dependencyGraph cycles d).filter
                  (fun y => ¬ y ∈ st.sorted) := by
                rw [List.mem_filter]
                exact ⟨hc2, by simpa using hc2S⟩
              rw [hx] at this
              simpa using this
            rw [hc2x, ← hcx]
            exact List.mem_append_right _ (by simp)
      · rw [hds]
        intro k hk j hj
        by_cases hkS : k < st.sorted.length
        · have hget : (st.sorted ++ [c]).get ⟨k, hk⟩ = st.sorted.get ⟨k, hkS⟩ :=
            List.get_append k hkS
          rw [hget] at hj
          have htake : (st.sorted ++ [c]).take k = st.sorted.take k :=
            List.take_append_of_le_length (by omega)
          rw [htake]
          exact hord k hkS j hj
        · have hkeq : k = st.sorted.length := by
            rw [List.length_append, List.length_singleton] at hk
            omega
          subst hkeq
          have hget : (st.sorted ++ [c]).get ⟨st.sorted.length, hk⟩ = c := by
            simp
          rw [hget] at hj
          rw [List.take_left]
          exact hc_deps j hj
    have hz2 : ∀ d, d < cycles.length → d ∉ st2.sorted → st2.inDeg d = 0 →
        d ∈ st2.queue ∨ d ∈ rest := by
      intro d hd hdns hdeg0
      rw [hdi d] at hdeg0
      rw [hds] at hdns
      by_cases hdrev : d ∈ reverseGraph cycles c
      · left
        rw [hdq]
        refine List.mem_append_right _ ?_
        rw [List.mem_filter]
        rw [if_pos hdrev] at hdeg0
        exact ⟨hdrev, by simpa using hdeg0⟩
      · rw [if_neg hdrev] at hdeg0
        have hdnS : d ∉ st.sorted := fun hh => hdns (List.mem_append_left _ hh)
        rcases hz d hd hdnS hdeg0 with hdQ | hdB
        · left
          rw [hdq]
          exact List.mem_append_left _ hdQ
        · rcases List.mem_cons.mp hdB with rfl | hdB2
          · exact absurd (List.mem_append_right _ (by simp)) hdns
          · exact Or.inr hdB2
    have hpre2 : ∀ d ∈ rest, d < cycles.length ∧ d ∉ st2.sorted ∧ d ∉ st2.queue ∧
        ∀ c2 ∈ dependencyGraph cycles d, c2 ∈ st2.sorted := by
      intro d hd
      obtain ⟨hlt, hns, hnq, hdeps⟩ := hpre d (List.mem_cons_of_mem c hd)
      refine ⟨hlt, ?_, ?_, ?_⟩
      · rw [hds]
        intro hmem
        rcases List.mem_append.mp hmem with hmem | hmem
        · exact hns hmem
        · simp at hmem
          subst hmem
          exact hcr hd
      · rw [hdq]
        intro hmem
        rcases List.mem_append.mp hmem with hmem | hmem
        · exact hnq hmem
        · exact hc_ns (hdeps c (hnewQ d hmem).2.1)
      · intro c2 hc2
        rw [hds]
        exact List.mem_append_left _ (hdeps c2 hc2)
    obtain ⟨hkk, hss⟩ := ih st2 hok2 hz2 hnd2 hpre2
    refine ⟨hkk, ?_⟩
    rw [hss, hds, List.append_assoc]
    rfl

theorem kahnLoop_ok (cycles : List TaskCycle) : ∀ (fuel : Nat) (st : KahnState),
    KOK cycles st →
    cycles.length + 1 ≤ fuel + st.sorted.length →
    ∃ S2 : List Nat, kahnLoop (reverseGraph cycles) fuel st = S2 ∧
      S2.Nodup ∧ (∀ d ∈ S2, d < cycles.length) ∧
      (∀ (k : Nat) (hk : k < S2.length),
        ∀ j ∈ dependencyGraph cycles (S2.get ⟨k, hk⟩), j ∈ S2.take k) ∧
      (∀ d, d < cycles.length → d ∉ S2 →
        ∃ c ∈ dependencyGraph cycles d, c ∉ S2) := by
  intro fuel
  induction fuel with
  | zero =>
    intro st hok hfuel
    obtain ⟨⟨hs_nd, _, _, hs_bd, _, _, _, _⟩, _⟩ := hok
    exfalso
    have hsub : st.sorted ⊆ List.range cycles.length :=
      fun a ha => List.mem_range.mpr (hs_bd a ha)
    have hlen := (hs_nd.subperm hsub).length_le
    rw [List.length_range] at hlen
    omega
  | succ fuel ih =>
    intro st hok hfuel
    unfold kahnLoop
    by_cases hq : st.queue.isEmpty = true
    · rw [if_pos hq]
      obtain ⟨⟨hs_nd, _, _, hs_bd, _, hdeg, _, hord⟩, hz⟩ := hok
      refine ⟨st.sorted, rfl, hs_nd, hs_bd, hord, ?_⟩
      intro d hd hdns
      have hq0 : st.queue = [] := by
        cases hqq : st.queue with
        | nil => rfl
        | cons a t => rw [hqq] at hq; simp at hq
      have hne : st.inDeg d ≠ 0 := by
        intro h0
        have hmem := hz d hd hdns h0
        rw [hq0] at hmem
        simp at hmem
      rw [hdeg d hd] at hne
      cases hf : (dependencyGraph cycles d).filter (fun c => ¬ c ∈ st.sorted) with
      | nil => rw [hf] at hne; simp at hne
      | cons x xs =>
        have hx : x ∈ (dependencyGraph cycles d).filter
            (fun c => ¬ c ∈ st.sorted) := by
          rw [hf]; simp
        rw [List.mem_filter] at hx
        exact ⟨x, hx.1, by simpa using hx.2⟩
    · rw [if_neg hq]
      dsimp only
      obtain ⟨⟨hs_nd, hq_nd, hqs, hs_bd, hq_bd, hdeg, hq_rdy, hord⟩, hz⟩ := hok
      have hperm := sortNat_perm st.queue
      have hbnd : (sortNat st.queue).Nodup := hperm.nodup_iff.mpr hq_nd
      have hok0 : KOK0 cycles { st with queue := [] } := by
        refine ⟨hs_nd, List.nodup_nil, by simp, hs_bd, by simp, hdeg, by simp, hord⟩
      have hz2 : ∀ d, d < cycles.length → d ∉ st.sorted → st.inDeg d = 0 →
          d ∈ ([] : List Nat) ∨ d ∈ sortNat st.queue := by
        intro d hd hdns hdeg0
        exact Or.inr (hperm.mem_iff.mpr (hz d hd hdns hdeg0))
      have hpre : ∀ d ∈ sortNat st.queue, d < cycles.length ∧
          d ∉ st.sorted ∧ d ∉ ([] : List Nat) ∧
          ∀ c ∈ dependencyGraph cycles d, c ∈ st.sorted := by
        intro d hd
        have hdq := hperm.mem_iff.mp hd
        exact ⟨hq_bd d hdq, hqs d hdq, by simp, hq_rdy d hdq⟩
      obtain ⟨hkk2, hss2⟩ := processBatch_ok cycles (sortNat st.queue)
        { st with queue := [] } hok0 hz2 hbnd hpre
      have hql : st.queue ≠ [] := by
        cases hqq : st.queue with
        | nil => rw [hqq] at hq; simp at hq
        | cons a t => simp
      have hfuel2 : cycles.length + 1 ≤ fuel +
          (processBatch (reverseGraph cycles) { st with queue := [] }
            (sortNat st.queue)).sorted.length := by
        rw [hss2]
        have h1 : 0 < st.queue.length := List.length_pos.mpr hql
        have h2 := hperm.length_eq
        have h3 : ({ st with queue := [] } : KahnState).sorted = st.sorted := rfl
        rw [h3, List.length_append]
        omega
      exact ih _ hkk2 hfuel2

theorem kahnIndices_ok (cycles : List TaskCycle) :
    (kahnIndices cycles).Nodup ∧
    (∀ d ∈ kahnIndices cycles, d < cycles.length) ∧
    (∀ (k : Nat) (hk : k < (kahnIndices cycles).length),
      ∀ j ∈ dependencyGraph cycles ((kahnIndices cycles).get ⟨k, hk⟩),
        j ∈ (kahnIndices cycles).take k) ∧
    (∀ d, d < cycles.length → d ∉ kahnIndices cycles →
      ∃ c ∈ dependencyGraph cycles d, c ∉ kahnIndices cycles) := by
  have hinit : KOK cycles
      { inDeg := fun i => (dependencyGraph cycles i).length,
        queue := (List.range cycles.length).filter
          (fun i => (dependencyGraph cycles i).length = 0),
        sorted := [] } := by
    refine ⟨⟨List.nodup_nil, List.Nodup.filter _ (List.nodup_range _), by simp,
      by simp, ?_, ?_, ?_, ?_⟩, ?_⟩
    · intro d hd
      rw [List.mem_filter] at hd
      exact List.mem_range.mp hd.1
    · intro d _
      simp
    · intro d hd c hc
      rw [List.mem_filter] at hd
      have hz : (dependencyGraph cycles d).length = 0 := by simpa using hd.2
      rw [List.length_eq_zero] at hz
      rw [hz] at hc
      simp at hc
    · intro k hk
      simp at hk
    · intro d hd hdns hdeg0
      rw [List.mem_filter]
      refine ⟨List.mem_range.mpr hd, ?_⟩
      simp only [decide_eq_true_eq]
      simpa using hdeg0
  obtain ⟨S2, hS2, hnd, hbd, hordr, hcomp⟩ :=
    kahnLoop_ok cycles (cycles.length + 1)
      { inDeg := fun i => (dependencyGraph cycles i).length,
        queue := (List.range cycles.length).filter
          (fun i => (dependencyGraph cycles i).length = 0),
        sorted := [] } hinit (by simp)
  have hkeq : kahnIndices cycles = S2 := hS2
  rw [hkeq]
  exact ⟨hnd, hbd, hordr, hcomp⟩

theorem noDepCycle_of_rank (cycles : List TaskCycle) (f : Nat → Nat)
    (hf : ∀ i j, depEdge cycles i j → f j < f i) : ¬ HasDepCycle cycles := by
  rintro ⟨i, hcyc⟩
  have key : ∀ a b : Nat, Relation.TransGen (depEdge cycles) a b → f b < f a := by
    intro a b h
    induction h with
    | single h1 => exact hf _ _ h1
    | tail _ h2 ih => exact lt_trans (hf _ _ h2) ih
  exact absurd (key i i hcyc) (lt_irrefl _)

theorem kahn_complete (cycles : List TaskCycle) (hacyc : ¬ HasDepCycle cycles) :
    ∀ d, d < cycles.length → d ∈ kahnIndices cycles := by
  by_contra hnot
  push_neg at hnot
  obtain ⟨d0, hd0, hd0n⟩ := hnot
  obtain ⟨_, _, _, hcomp⟩ := kahnIndices_ok cycles
  have hstep : ∀ u : {u : Nat // u < cycles.length ∧ u ∉ kahnIndices cycles},
      ∃ v : {u : Nat // u < cycles.length ∧ u ∉ kahnIndices cycles},
        depEdge cycles u.1 v.1 := by
    rintro ⟨u, hu1, hu2⟩
    obtain ⟨c, hc1, hc2⟩ := hcomp u hu1 hu2
    exact ⟨⟨c, dependencyGraph_lt cycles u c hc1, hc2⟩, hc1⟩
  choose σ hσ using hstep
  have hgstep : ∀ k : Nat,
      depEdge cycles ((σ^[k] ⟨d0, hd0, hd0n⟩).1) ((σ^[k + 1] ⟨d0, hd0, hd0n⟩).1) := by
    intro k
    rw [Function.iterate_succ_apply' σ k _]
    exact hσ _
  have htrans : ∀ a b : Nat, a < b →
      Relation.TransGen (depEdge cycles)
        ((σ^[a] ⟨d0, hd0, hd0n⟩).1) ((σ^[b] ⟨d0, hd0, hd0n⟩).1) := by
    intro a b hab
    induction b with
    | zero => omega
    | succ b ihb =>
      by_cases hab2 : a = b
      · subst hab2
        exact Relation.TransGen.single (hgstep a)
      · exact Relation.TransGen.tail (ihb (by omega)) (hgstep b)
  obtain ⟨k1, k2, hk12, heq⟩ := Fintype.exists_ne_map_eq_of_card_lt
    (fun k : Fin (cycles.length + 1) =>
      (⟨(σ^[k.1] ⟨d0, hd0, hd0n⟩).1, (σ^[k.1] ⟨d0, hd0, hd0n⟩).2.1⟩ :
        Fin cycles.length)) (by simp)
  have hval : (σ^[k1.1] ⟨d0, hd0, hd0n⟩).1 = (σ^[k2.1] ⟨d0, hd0, hd0n⟩).1 := by
    simpa using heq
  rcases Nat.lt_or_ge k1.1 k2.1 with hlt | hge
  · refine hacyc ⟨(σ^[k1.1] ⟨d0, hd0, hd0n⟩).1, ?_⟩
    have := htrans k1.1 k2.1 hlt
    rwa [← hval] at this
  · have hlt : k2.1 < k1.1 := by
      have hne : k1.1 ≠ k2.1 := fun hh => hk12 (Fin.ext hh)
      omega
    refine hacyc ⟨(σ^[k2.1] ⟨d0, hd0, hd0n⟩).1, ?_⟩
    have := htrans k2.1 k1.1 hlt
    rwa [hval] at this

theorem indexOf_lt_of_mem_take : ∀ (l : List Nat) (j k : Nat),
    j ∈ l.take k → l.indexOf j < k := by
  intro l
  induction l with
  | nil => intro j k h; simp at h
  | cons a t ih =>
    intro j k h
    cases k with
    | zero => simp at h
    | succ k =>
      rw [List.take_succ_cons] at h
      by_cases haj : a = j
      · subst haj
        rw [List.indexOf_cons_self]
        omega
      · rcases List.mem_cons.mp h with rfl | h2
        · exact absurd rfl haj
        · rw [List.indexOf_cons_ne t haj]
          have := ih j k h2
          omega

theorem kahn_order (cycles : List TaskCycle)
    (hall : ∀ d, d < cycles.length → d ∈ kahnIndices cycles) :
    ∀ i j, depEdge cycles i j →
      (kahnIndices cycles).indexOf j < (kahnIndices cycles).indexOf i := by
  obtain ⟨hnd, hbd, hordr, _⟩ := kahnIndices_ok cycles
  intro i j hij
  have hiR : i ∈ kahnIndices cycles := hall i (dependencyGraph_src_lt cycles i j hij)
  have hidx : (kahnIndices cycles).indexOf i < (kahnIndices cycles).length :=
    List.indexOf_lt_length.mpr hiR
  have hget : (kahnIndices cycles).get ⟨(kahnIndices cycles).indexOf i, hidx⟩ = i :=
    List.indexOf_get hidx
  have hjtake := hordr _ hidx j (by rw [hget]; exact hij)
  exact indexOf_lt_of_mem_take _ j _ hjtake

theorem cycleProduces_lt (cycles : List TaskCycle) (j : Nat) (c : String)
    (h : c ∈ cycleProduces cycles j) : j < cycles.length := by
  unfold cycleProduces at h
  cases hget : cycles.get? j with
  | none =>
    rw [hget] at h
    simp at h
  | some cy =>
    by_contra hge
    rw [List.get?_eq_none.mpr (by omega)] at hget
    exact Option.noConfusion hget

/-- **C7.** When the cycle-level cargo dependency graph is acyclic, the index
sequence emitted by Kahn's algorithm is a permutation of all cycle indices in
which every producer of a cargo type precedes every other cycle requiring that
cargo type, and `topological_sort` returns the cycles reordered by it; when
the graph has a true directed cycle, `topological_sort` returns the input list
unchanged. -/
theorem topological_sort_spec (cycles : List TaskCycle) :
    (¬ HasDepCycle cycles →
      List.Perm (kahnIndices cycles) (List.range cycles.length) ∧
      (∀ i j c, c ∈ cycleRequires cycles i → c ∈ cycleProduces cycles j → j ≠ i →
        (kahnIndices cycles).indexOf j < (kahnIndices cycles).indexOf i) ∧
      topological_sort cycles =
        (kahnIndices cycles).filterMap (fun i => cycles.get? i)) ∧
    (HasDepCycle cycles → topological_sort cycles = cycles) := by
  obtain ⟨hnd, hbd, hordr, hcomp⟩ := kahnIndices_ok cycles
  have hsub : kahnIndices cycles ⊆ List.range cycles.length :=
    fun a ha => List.mem_range.mpr (hbd a ha)
  constructor
  · intro hacyc
    have hall := kahn_complete cycles hacyc
    have hsub2 : List.range cycles.length ⊆ kahnIndices cycles :=
      fun a ha => hall a (List.mem_range.mp ha)
    have hperm : List.Perm (kahnIndices cycles) (List.range cycles.length) :=
      (hnd.subperm hsub).antisymm ((List.nodup_range _).subperm hsub2)
    have hlen : (kahnIndices cycles).length = cycles.length := by
      rw [hperm.length_eq, List.length_range]
    refine ⟨hperm, ?_, ?_⟩
    · intro i j c hreq hprod hne
      refine kahn_order cycles hall i j ?_
      exact (mem_dependencyGraph cycles i j).mpr
        ⟨cycleProduces_lt cycles j c hprod, hne, c, hreq, hprod⟩
    · unfold topological_sort
      by_cases hemp : cycles.isEmpty = true
      · rw [if_pos hemp]
        have : cycles = [] := by simpa using hemp
        subst this
        exact (List.filterMap_eq_nil.mpr (fun a _ => rfl)).symm
      · rw [if_neg hemp]
        dsimp only
        rw [if_neg (by simpa using hlen)]
  · intro hcyc
    unfold topological_sort
    by_cases hemp : cycles.isEmpty = true
    · rw [if_pos hemp]
      have : cycles = [] := by simpa using hemp
      rw [this]
    · rw [if_neg hemp]
      dsimp only
      by_cases hlen : (kahnIndices cycles).length ≠ cycles.length
      · rw [if_pos hlen]
      · rw [if_neg hlen]
        exfalso
        push_neg at hlen
        have hall : ∀ d, d < cycles.length → d ∈ kahnIndices cycles := by
          intro d hd
          have hperm : List.Perm (kahnIndices cycles) (List.range cycles.length) :=
            (hnd.subperm hsub).perm_of_length_le
              (by rw [hlen, List.length_range])
          exact hperm.mem_iff.mpr (List.mem_range.mpr hd)
        exact noDepCycle_of_rank cycles
          (fun d => (kahnIndices cycles).indexOf d)
          (kahn_order cycles hall) hcyc

/-- Witness for C7: for the two-cycle list where cycle 0 delivers a red statue
and cycle 1 picks one up, the sort emits the producer (index 1) before the
requirer (index 0) and returns the reordered list. -/
theorem topological_sort_spec_witness :
    topological_sort [cycleRequirer, cycleProducer] =
      (kahnIndices [cycleRequirer, cycleProducer]).filterMap
        (fun i => [cycleRequirer, cycleProducer].get? i) ∧
    (kahnIndices [cycleRequirer, cycleProducer]).indexOf 1 <
      (kahnIndices [cycleRequirer, cycleProducer]).indexOf 0 := by
  have hrank : ∀ i j, depEdge [cycleRequirer, cycleProducer] i j →
      (if j = 0 then 1 else 0 : Nat) < (if i = 0 then 1 else 0) := by
    intro i j h
    unfold depEdge at h
    match i with
    | 0 =>
      have hg : dependencyGraph [cycleRequirer, cycleProducer] 0 = [1] := by decide
      rw [hg] at h
      simp at h
      subst h
      decide
    | 1 =>
      have hg : dependencyGraph [cycleRequirer, cycleProducer] 1 = [] := by decide
      rw [hg] at h
      simp at h
    | n + 2 =>
      have hg : dependencyGraph [cycleRequirer, cycleProducer] (n + 2) = [] := rfl
      rw [hg] at h
      simp at h
  have h := (topological_sort_spec [cycleRequirer, cycleProducer]).1
    (noDepCycle_of_rank [cycleRequirer, cycleProducer]
      (fun k => if k = 0 then 1 else 0) hrank)
  refine ⟨h.2.2, ?_⟩
  refine h.2.1 0 1 "statue:red" ?_ ?_ (by decide)
  · decide
  · decide

/-! ## Successful-call shape lemmas

The faithful model makes many calls raise; these lemmas characterise the
outputs of the calls that do succeed. -/

theorem except_bind_ok {e a b : Type} (m : Except e a) (k : a → Except e b) (x : b)
    (h : bind m k = Except.ok x) : ∃ y, m = Except.ok y ∧ k y = Except.ok x := by
  cases m with
  | error msg => exact absurd h (by simp [bind, Except.bind])
  | ok y => exact ⟨y, rfl, by simpa [bind, Except.bind] using h⟩

theorem execute_task_ok_state (g : HexGrid) (tm : TaskManager) (task : Task)
    (p : PlayerState) (out : TaskManager × PlayerState × Bool)
    (h : TaskManager.execute_task g tm task p = Except.ok out) :
    out = (tm, p, false) := by
  unfold TaskManager.execute_task at h
  by_cases h1 : task.remaining_uses ≤ 0
  · rw [if_pos h1] at h
    injection h with h
    exact h.symm
  · rw [if_neg h1] at h
    by_cases h2 : ¬ task.can_execute p.completed_task_ids = true
    · rw [if_pos h2] at h
      injection h with h
      exact h.symm
    · rw [if_neg h2] at h
      cases h3 : g.get_tile task.tile_id with
      | none =>
        rw [h3] at h
        injection h with h
        exact h.symm
      | some tt =>
        rw [h3] at h
        cases h4 : g.get_tile p.current_tile_id with
        | none =>
          rw [h4] at h
          injection h with h
          exact h.symm
        | some ct =>
          rw [h4] at h
          simp at h

theorem tryExecuteTask_ok (g : HexGrid) (nb task_id : String) (p : PlayerState)
    (tm : TaskManager) (step : SimulationStep)
    (out : PlayerState × TaskManager × SimulationStep)
    (h : tryExecuteTask g nb task_id p tm step = Except.ok out) :
    out = (p, tm, step) := by
  unfold tryExecuteTask at h
  cases hf : (tm.tasks.find? (fun e => e.1 == task_id)).map (fun e => e.2) with
  | none =>
    rw [hf] at h
    injection h with h
    exact h.symm
  | some task =>
    rw [hf] at h
    dsimp only at h
    by_cases hc : (task.status == TaskStatus.pending &&
        task.can_execute p.completed_task_ids) = true
    · rw [if_pos hc] at h
      obtain ⟨⟨tm2, p2, success⟩, ha, hk⟩ := except_bind_ok _ _ _ h
      have hst := execute_task_ok_state g tm task p _ ha
      rw [hst] at hk
      dsimp only at hk
      rw [if_neg (by simp)] at hk
      injection hk with hk
      exact hk.symm
    · rw [if_neg hc] at h
      injection h with h
      exact h.symm

theorem taskScanTile_ok (g : HexGrid) (nb : String) : ∀ (ids : List String)
    (p : PlayerState) (tm : TaskManager) (step : SimulationStep)
    (out : PlayerState × TaskManager × SimulationStep),
    taskScanTile g nb ids p tm step = Except.ok out → out = (p, tm, step) := by
  intro ids
  induction ids with
  | nil =>
    intro p tm step out h
    unfold taskScanTile at h
    injection h with h
    exact h.symm
  | cons tid rest ih =>
    intro p tm step out h
    unfold taskScanTile at h
    obtain ⟨⟨p2, tm2, step2⟩, ha, hk⟩ := except_bind_ok _ _ _ h
    have hst := tryExecuteTask_ok g nb tid p tm step _ ha
    rw [hst] at hk
    dsimp only at hk
    exact ih p tm step out hk

theorem taskScanNeighbours_ok (g : HexGrid) : ∀ (nbs : List String)
    (p : PlayerState) (tm : TaskManager) (step : SimulationStep)
    (out : PlayerState × TaskManager × SimulationStep),
    taskScanNeighbours g nbs p tm step = Except.ok out → out = (p, tm, step) := by
  intro nbs
  induction nbs with
  | nil =>
    intro p tm step out h
    unfold taskScanNeighbours at h
    injection h with h
    exact h.symm
  | cons nb rest ih =>
    intro p tm step out h
    unfold taskScanNeighbours at h
    cases hnb : g.get_tile nb with
    | none =>
      rw [hnb] at h
      dsimp only at h
      exact ih p tm step out h
    | some nt =>
      rw [hnb] at h
      dsimp only at h
      by_cases hw : nt.is_water = true
      · rw [if_pos hw] at h
        exact ih p tm step out h
      · rw [if_neg hw] at h
        obtain ⟨⟨p2, tm2, step2⟩, ha, hk⟩ := except_bind_ok _ _ _ h
        have hst := taskScanTile_ok g nb _ p tm step _ ha
        rw [hst] at hk
        dsimp only at hk
        exact ih p tm step out hk

theorem check_and_execute_tasks_ok (g : HexGrid) (cur : String) (p : PlayerState)
    (tm : TaskManager) (step : SimulationStep)
    (out : PlayerState × TaskManager × SimulationStep)
    (h : check_and_execute_tasks g cur p tm step = Except.ok out) :
    out = (p, tm, step) := by
  unfold check_and_execute_tasks at h
  cases hcur : g.get_tile cur with
  | none =>
    rw [hcur] at h
    injection h with h
    exact h.symm
  | some ct =>
    rw [hcur] at h
    dsimp only at h
    exact taskScanNeighbours_ok g ct.neighbours p tm step out h

theorem simulate_step_clean (g : HexGrid) (tm : TaskManager) (a b : String)
    (p : PlayerState) (sh : List String) (i : Nat) (s : SimulationStep)
    (p2 : PlayerState) (tm2 : TaskManager)
    (hv : moveViolation g a b = false)
    (h : simulate_step g tm a b p sh i = Except.ok (s, p2, tm2)) :
    ¬ s.action_type = "error" ∧
    p2.total_moves = p.total_moves + 1 ∧
    p2.total_turns =
      (if (p.total_moves + 1) % 3 = 0 then p.total_turns + 1 else p.total_turns) ∧
    p2.cargo = p.cargo := by
  unfold moveViolation at hv
  unfold simulate_step at h
  cases hfa : g.get_tile a with
  | none => rw [hfa] at hv; cases hfb : g.get_tile b <;> rw [hfb] at hv <;> simp at hv
  | some fa =>
    cases hfb : g.get_tile b with
    | none => rw [hfa, hfb] at hv; simp at hv
    | some fb =>
      rw [hfa, hfb] at hv
      simp at hv
      rw [hfa, hfb] at h
      dsimp only at h
      rw [if_neg (by simp [hv.1]),
        if_neg (by intro hc; exact absurd (hv.2 hc.1) (by simpa using hc.2))] at h
      obtain ⟨⟨p3, tm3, step3⟩, hc1, hk⟩ := except_bind_ok _ _ _ h
      have hsc := check_and_execute_tasks_ok g b (p.execute_move b 1) tm _ _ hc1
      rw [hsc] at hk
      dsimp only at hk
      obtain ⟨p4, tm4, step4, h4, hm4, ht4, hcur4, hg4, ha4⟩ :=
        check_and_build_shrines_spec g b sh (p.execute_move b 1) tm
          { step_number := i, current_tile_id := b, action_type := "move",
            action_target := none, moves_used := 1,
            turn_number := (p.execute_move b 1).total_turns }
      rw [h4] at hk
      dsimp only at hk
      injection hk with hk
      simp only [Prod.mk.injEq] at hk
      obtain ⟨hs4, hp4, htm4⟩ := hk
      subst hs4
      subst hp4
      have hmv := execute_move_one p b
      refine ⟨?_, ?_, ?_, ?_⟩
      · dsimp only at ha4
        rcases ha4 with ha | ha <;> rw [ha] <;> decide
      · rw [hm4]
        exact hmv.1
      · rw [ht4]
        exact hmv.2.1
      · rw [hg4]
        exact hmv.2.2.1

theorem simulate_step_preserves (g : HexGrid) (tm : TaskManager) (a b : String)
    (p : PlayerState) (sh : List String) (i : Nat) (s : SimulationStep)
    (p2 : PlayerState) (tm2 : TaskManager)
    (h : simulate_step g tm a b p sh i = Except.ok (s, p2, tm2)) :
    (p.total_turns = p.total_moves / 3 → p2.total_turns = p2.total_moves / 3) ∧
    (p.cargo.length ≤ 2 → p2.cargo.length ≤ 2) := by
  by_cases hv : moveViolation g a b = true
  · rw [simulate_step_violation g tm a b p sh i hv] at h
    injection h with h
    simp only [Prod.mk.injEq] at h
    obtain ⟨h1, h2, h3⟩ := h
    subst h2
    exact ⟨fun hh => hh, fun hh => hh⟩
  · have hc := simulate_step_clean g tm a b p sh i s p2 tm2 (by simpa using hv) h
    constructor
    · intro hinv
      rw [hc.2.2.1, hc.2.1]
      split <;> omega
    · intro hh
      rw [hc.2.2.2]
      exact hh

theorem simLoop_preserves (g : HexGrid) (sh : List String) : ∀ (rest : List String)
    (prev : String) (i : Nat) (p : PlayerState) (tm : TaskManager)
    (steps : List SimulationStep)
    (out : PlayerState × TaskManager × List SimulationStep × List String),
    simLoop g sh prev i rest p tm steps = Except.ok out →
    (p.total_turns = p.total_moves / 3 → out.1.total_turns = out.1.total_moves / 3) ∧
    (p.cargo.length ≤ 2 → out.1.cargo.length ≤ 2) := by
  intro rest
  induction rest with
  | nil =>
    intro prev i p tm steps out h
    unfold simLoop at h
    simp at h
    rw [← h]
    exact ⟨fun hh => hh, fun hh => hh⟩
  | cons nxt rest ih =>
    intro prev i p tm steps out h
    unfold simLoop at h
    rcases hs : simulate_step g tm prev nxt p sh i with e | ⟨s, p2, tm2⟩
    · rw [hs] at h; simp [bind, Except.bind] at h
    · rw [hs] at h
      simp only [bind, Except.bind] at h
      have hstep := simulate_step_preserves g tm prev nxt p sh i s p2 tm2 hs
      by_cases he : (s.action_type == "error") = true
      · rw [if_pos he] at h
        simp at h
        rw [← h]
        exact hstep
      · rw [if_neg he] at h
        have := ih nxt (i + 1) p2 tm2 (steps ++ [s]) out h
        exact ⟨fun hh => this.1 (hstep.1 hh), fun hh => this.2 (hstep.2 hh)⟩

/-! ## Claim C6 (corrected) -/

/-- Counterexample to C6 as stated: after the first simulated move the player
state holds `total_moves = 1` and `total_turns = 0`, but
`⌈1/3⌉ = (1 + 2) / 3 = 1`, so the turn counter is not the ceiling of
`total_moves / 3`.  (The route errors at step 2, so the simulator returns
this result.) -/
theorem player_turns_not_ceiling :
    (simulate_route gridChain tmEmpty ["z", "a", "xx"] none).map
      (fun res => (res.total_moves, res.total_turns,
        decide (res.total_turns = (res.total_moves + 2) / 3))) =
      Except.ok (1, 0, false) := by
  decide

/-- C6 amended: the turn counter maintained by the player state equals the
floor `total_moves / 3`, not the ceiling: every 1-move `execute_move`
preserves the relation, and every `SimulationResult` the simulator returns
satisfies it. -/
theorem player_turns_floor_of_moves :
    (∀ (p : PlayerState) (dst : String), p.total_turns = p.total_moves / 3 →
      (p.execute_move dst 1).total_turns = (p.execute_move dst 1).total_moves / 3) ∧
    (∀ (g : HexGrid) (tm : TaskManager) (route : List String)
      (sh : Option (List String)) (res : SimulationResult),
      simulate_route g tm route sh = Except.ok res →
      res.total_turns = res.total_moves / 3) := by
  constructor
  · intro p dst h
    have hmv := execute_move_one p dst
    rw [hmv.1, hmv.2.1]
    split <;> omega
  · intro g tm route sh res h
    rcases simulate_route_ok_cases g tm route sh res h with hres | hres |
      ⟨zt, rest, p, tm2, steps, errors, hz, hroute, hloop, herr, hres⟩
    · rw [hres]; rfl
    · rw [hres]; rfl
    · have hpres := simLoop_preserves g (shrineSet sh) rest zt.id 1
        (PlayerState.init zt.id) tm [] (p, tm2, steps, errors) hloop
      rw [hres]
      exact hpres.1 (by simp [PlayerState.init])

/-- Witness for the amended C6: one move from a fresh player state keeps
`total_turns = total_moves / 3`. -/
theorem player_turns_floor_of_moves_witness :
    ((PlayerState.init "z").execute_move "a" 1).total_turns =
      ((PlayerState.init "z").execute_move "a" 1).total_moves / 3 :=
  player_turns_floor_of_moves.1 (PlayerState.init "z") "a" (by decide)

/-! ## Claim C5 -/

/-- C5: the 2-slot cargo bound holds after every simulated step: a task
execution that returns leaves the player state (hence cargo) unchanged,
moves and shrine builds leave cargo untouched, every `_simulate_step`
preserves the bound, and (since the initial state is empty) the final player
state of any returned simulation satisfies it. -/
theorem cargo_capacity_invariant :
    (∀ (g : HexGrid) (tm : TaskManager) (task : Task) (p : PlayerState)
      (tm2 : TaskManager) (p2 : PlayerState) (b : Bool),
      TaskManager.execute_task g tm task p = Except.ok (tm2, p2, b) →
      p.cargo.length ≤ 2 → p2.cargo.length ≤ 2) ∧
    (∀ (p : PlayerState) (dst : String), (p.execute_move dst 1).cargo = p.cargo) ∧
    (∀ (p : PlayerState) (sid : String), (p.build_shrine sid).cargo = p.cargo) ∧
    (∀ (g : HexGrid) (tm : TaskManager) (a b : String) (p : PlayerState)
      (sh : List String) (i : Nat) (s : SimulationStep) (p2 : PlayerState)
      (tm2 : TaskManager),
      simulate_step g tm a b p sh i = Except.ok (s, p2, tm2) →
      p.cargo.length ≤ 2 → p2.cargo.length ≤ 2) ∧
    (∀ (g : HexGrid) (tm : TaskManager) (route : List String)
      (sh : Option (List String)) (res : SimulationResult),
      simulate_route g tm route sh = Except.ok res →
      res.final_player_state.cargo.length ≤ 2) := by
  refine ⟨?_, ?_, ?_, ?_, ?_⟩
  · intro g tm task p tm2 p2 b h hlen
    have hst := execute_task_ok_state g tm task p (tm2, p2, b) h
    simp only [Prod.mk.injEq] at hst
    obtain ⟨e1, e2, e3⟩ := hst
    subst e2
    exact hlen
  · intro p dst
    exact (execute_move_one p dst).2.2.1
  · intro p sid
    rfl
  · intro g tm a b p sh i s p2 tm2 h
    exact (simulate_step_preserves g tm a b p sh i s p2 tm2 h).2
  · intro g tm route sh res h
    rcases simulate_route_ok_cases g tm route sh res h with hres | hres |
      ⟨zt, rest, p, tm2, steps, errors, hz, hroute, hloop, herr, hres⟩
    · rw [hres]; decide
    · rw [hres]; decide
    · have hpres := simLoop_preserves g (shrineSet sh) rest zt.id 1
        (PlayerState.init zt.id) tm [] (p, tm2, steps, errors) hloop
      rw [hres]
      exact hpres.2 (by simp [PlayerState.init])

/-- Witness for C5: a concrete `_simulate_step` on `gridChain` (the move
`z → a`, which fires no task) keeps cargo within the bound. -/
theorem cargo_capacity_invariant_witness :
    ∃ out, simulate_step gridChain tmMonster "z" "a" (PlayerState.init "z") [] 1 =
      Except.ok out ∧ out.2.1.cargo.length ≤ 2 := by
  have hout : simulate_step gridChain tmMonster "z" "a" (PlayerState.init "z") [] 1 =
      Except.ok (⟨1, "a", "move", none, 1, 0⟩, ⟨"a", 1, 0, [], [], []⟩, tmMonster) := by
    decide
  exact ⟨_, hout, cargo_capacity_invariant.2.2.2.1 gridChain tmMonster "z" "a"
    (PlayerState.init "z") [] 1 _ _ _ hout (by decide)⟩

/-! ## Claim C2 (code bug) -/

/-- C2: the claimed halt-and-report behaviour on a violating move is
unreachable in general: on the water chain `z - a - b - c` with the pending
monster task on `M` (adjacent to `c`), the route `[z, a, b, c, xx]` contains
the violating pair `c → xx` (nonexistent destination), but the simulation
raises the `neighbors` `AttributeError` inside `execute_task` while scanning
`c`'s task neighbour `M` at step 3 — before the violating step is ever
simulated — so no `SimulationResult` (error step, success flag, trace) is
returned at all. -/
theorem simulate_route_crashes_before_violation :
    simulate_route gridChain tmMonster ["z", "a", "b", "c", "xx"] none =
      Except.error attrNeighbors := by
  decide

/-! ## Claim C4 (code bug) -/

/-- C4: a task execution that passes the uses and dependency checks and
whose task tile and current player tile both resolve raises the `neighbors`
`AttributeError` while evaluating the adjacency precondition — even when the
player is **not** adjacent to the task tile, where the claim requires a clean
failure return with state unchanged. -/
theorem execute_task_raises (g : HexGrid) (tm : TaskManager) (task : Task)
    (p : PlayerState) (task_tile current_tile : Tile)
    (h1 : ¬ task.remaining_uses ≤ 0)
    (h2 : task.can_execute p.completed_task_ids = true)
    (h3 : g.get_tile task.tile_id = some task_tile)
    (h4 : g.get_tile p.current_tile_id = some current_tile) :
    TaskManager.execute_task g tm task p = Except.error attrNeighbors := by
  unfold TaskManager.execute_task
  rw [if_neg h1, if_neg (not_not_intro h2), h3, h4]

/-- Witness for C4: the player stands on the hub `z` of `gridChain`, which is
not adjacent to the monster tile `M`, yet executing the monster task raises
instead of returning failure. -/
theorem execute_task_raises_witness :
    TaskManager.execute_task gridChain tmMonster taskMonster (PlayerState.init "z") =
      Except.error attrNeighbors :=
  execute_task_raises gridChain tmMonster taskMonster (PlayerState.init "z")
    chainM chainZ (by decide) (by decide) (by decide) (by decide)

/-! ## Claim C9: successful repairs and their outputs -/

theorem get_shortest_path_ok (g : HexGrid) (u v : String)
    (x : Option (List String)) (h : get_shortest_path g u v = Except.ok x) :
    x = none := by
  unfold get_shortest_path build_graphs at h
  by_cases hg : g.tiles.isEmpty = true
  · rw [if_pos hg] at h
    simp only [bind, Except.bind, pure, Except.pure] at h
    injection h with h
    exact h.symm
  · rw [if_neg hg] at h
    simp [bind, Except.bind] at h

theorem get_shortest_distance_ok (g : HexGrid) (u v : String)
    (x : Option Nat) (h : get_shortest_distance g u v = Except.ok x) :
    x = none := by
  unfold get_shortest_distance build_graphs at h
  by_cases hg : g.tiles.isEmpty = true
  · rw [if_pos hg] at h
    simp only [bind, Except.bind, pure, Except.pure] at h
    injection h with h
    exact h.symm
  · rw [if_neg hg] at h
    simp [bind, Except.bind] at h

theorem tiles_adjacent_ok (g : HexGrid) (a b : String) (x : Bool)
    (h : tiles_adjacent g a b = Except.ok x) : x = false := by
  unfold tiles_adjacent at h
  cases ht : g.get_tile a with
  | none =>
    rw [ht] at h
    injection h with h
    exact h.symm
  | some t =>
    rw [ht] at h
    simp at h

theorem rerouteLoop_ok (g : HexGrid) (route : List String) (cur : String) :
    ∀ (tiles : List Tile) (x : Option (List String)),
    rerouteLoop g route cur tiles = Except.ok x → x = none := by
  intro tiles
  induction tiles with
  | nil =>
    intro x h
    unfold rerouteLoop at h
    injection h with h
    exact h.symm
  | cons nb rest ih =>
    intro x h
    unfold rerouteLoop at h
    obtain ⟨bridge, hb, hk⟩ := except_bind_ok _ _ _ h
    have hbn := get_shortest_path_ok g cur nb.id bridge hb
    subst hbn
    dsimp only at hk
    exact ih x hk

theorem repairStep_ok (g : HexGrid) (repaired : List String) (next_tile : String)
    (out : List String) (h : repairStep g repaired next_tile = Except.ok out) :
    next_tile = repaired.getLastD "" ∧ out = repaired := by
  unfold repairStep at h
  dsimp only at h
  by_cases he : next_tile = repaired.getLastD ""
  · rw [if_pos he] at h
    injection h with h
    exact ⟨he, h.symm⟩
  · rw [if_neg he] at h
    by_cases hl : isLandNonZeus g next_tile = true
    · rw [if_pos hl] at h
      obtain ⟨rr, hr, hk⟩ := except_bind_ok _ _ _ h
      have hrn : rr = none := by
        unfold reroute_via_water at hr
        exact rerouteLoop_ok g repaired (repaired.getLastD "") _ rr hr
      subst hrn
      dsimp only at hk
      exact absurd hk (by simp)
    · rw [if_neg hl] at h
      obtain ⟨adj, hadj, hk⟩ := except_bind_ok _ _ _ h
      have han : adj = false := tiles_adjacent_ok g _ next_tile adj hadj
      subst han
      rw [if_neg (by simp)] at hk
      obtain ⟨bridge, hb, hk2⟩ := except_bind_ok _ _ _ hk
      have hbn : bridge = none := get_shortest_path_ok g _ next_tile bridge hb
      subst hbn
      dsimp only at hk2
      exact absurd hk2 (by simp)

theorem repairAux_ok (g : HexGrid) : ∀ (rest repaired out : List String),
    repairAux g repaired rest = Except.ok out → out = repaired := by
  intro rest
  induction rest with
  | nil =>
    intro repaired out h
    unfold repairAux at h
    injection h with h
    exact h.symm
  | cons nxt rest ih =>
    intro repaired out h
    unfold repairAux at h
    obtain ⟨rep2, h1, hk⟩ := except_bind_ok _ _ _ h
    have hfix := (repairStep_ok g repaired nxt rep2 h1).2
    rw [hfix] at hk
    exact ih repaired out hk

/-- C9: route repair is idempotent.  Every call of `repair_route` that
returns (the adjacency probe raises whenever the current tile resolves, and
every bridging query either raises or yields no path, a `ValueError`) leaves
the repaired prefix `[route.head]` unchanged, and repairing that output
returns it unchanged again. -/
theorem repair_route_idempotent (g : HexGrid) (route out : List String)
    (h : repair_route g route = Except.ok out) :
    repair_route g out = Except.ok out := by
  cases route with
  | nil =>
    unfold repair_route at h
    injection h with h
    subst h
    rfl
  | cons r0 rest =>
    unfold repair_route at h
    have hfix := repairAux_ok g rest [r0] out h
    subst hfix
    rfl

/-- Witness for C9: the constant route `[w1, w1]` on `gridRepair` repairs to
`[w1]`, and repairing that output returns it unchanged. -/
theorem repair_route_idempotent_witness :
    repair_route gridRepair ["w1", "w1"] = Except.ok ["w1"] ∧
    repair_route gridRepair ["w1"] = Except.ok ["w1"] :=
  ⟨by decide, repair_route_idempotent gridRepair ["w1", "w1"] ["w1"] (by decide)⟩

/-! ## Claim C8 (code bug) -/

theorem oppsLoop_ok (g : HexGrid) (route : List String) (cands : List Tile)
    (acc : List (String × List (String × Nat))) :
    ∀ (idxs : List Nat) (x : List ShrineOpportunity),
    oppsLoop g route cands acc idxs = Except.ok x → x = [] := by
  intro idxs
  induction idxs with
  | nil =>
    intro x h
    unfold oppsLoop at h
    injection h with h
    exact h.symm
  | cons index rest ih =>
    intro x h
    unfold oppsLoop at h
    dsimp only at h
    obtain ⟨mtn, hm, hk⟩ := except_bind_ok _ _ _ h
    have hmn := get_shortest_distance_ok g _ _ mtn hm
    subst hmn
    dsimp only at hk
    exact ih x hk

theorem find_shrine_opportunities_ok (g : HexGrid) (route : List String)
    (cands : List Tile) (x : List ShrineOpportunity)
    (h : find_shrine_opportunities g route cands = Except.ok x) : x = [] := by
  unfold find_shrine_opportunities at h
  obtain ⟨acc, ha, hk⟩ := except_bind_ok _ _ _ h
  exact oppsLoop_ok g route cands acc _ x hk

/-- C8: the shrine-opportunity miner never records the claimed opportunities:
every call either raises (the water-access precompute reads the nonexistent
`neighbors` attribute of any resolving shrine tile, and on a grid with tiles
the distance calculator cannot even be constructed) or returns the empty
list; in particular, on `gridShrine` with the hop `w1 → w3` and candidate
shrine `s` — where the claim predicts a recorded zero-detour opportunity —
the call raises the `AttributeError` instead. -/
theorem find_shrine_opportunities_never_records :
    (∀ (g : HexGrid) (route : List String) (cands : List Tile),
      find_shrine_opportunities g route cands = Except.ok [] ∨
      ∃ e, find_shrine_opportunities g route cands = Except.error e) ∧
    find_shrine_opportunities gridShrine ["w1", "w3"] [tileShrine] =
      Except.error attrNeighbors := by
  constructor
  · intro g route cands
    rcases hf : find_shrine_opportunities g route cands with e | x
    · exact Or.inr ⟨e, rfl⟩
    · have hx := find_shrine_opportunities_ok g route cands x hf
      subst hx
      exact Or.inl rfl
  · decide

/-! ## Claim C1 (code bug) -/

theorem get_tile_empty (g : HexGrid) (hg : g.tiles.isEmpty = true) (x : String) :
    g.get_tile x = none := by
  unfold HexGrid.get_tile
  cases hl : g.tiles with
  | nil => rfl
  | cons a l => rw [hl] at hg; simp at hg

/-- C1: the solver never returns a route at all, so the claimed adjacency and
hub-boundedness of returned routes is unrealisable: on any grid with a tile,
constructing the heuristic raises the `neighbors` `AttributeError` inside the
distance calculator; on the tile-less grid no Zeus tile resolves and both
entry points raise `ValueError`.  In particular the concrete call on
`gridChain` raises. -/
theorem solver_never_returns_route :
    (∀ (g : HexGrid) (tm : TaskManager) (cycle_tile_ids : List (List String)),
      (∃ e, solve g tm = Except.error e) ∧
      (∃ e, solve_with_custom_cycles g tm cycle_tile_ids = Except.error e)) ∧
    solve gridChain tmMonster = Except.error attrNeighbors := by
  constructor
  · intro g tm cycle_tile_ids
    by_cases hg : g.tiles.isEmpty = true
    · have hz : g.get_zeus_tile = none := by
        unfold HexGrid.get_zeus_tile
        exact get_tile_empty g hg g.zeus_tile_id
      refine ⟨⟨"Zeus tile not configured on grid", ?_⟩,
        ⟨"Zeus tile not configured on grid", ?_⟩⟩
      · unfold solve build_graphs
        rw [if_pos hg, hz]
        rfl
      · unfold solve_with_custom_cycles build_graphs
        rw [if_pos hg, hz]
        rfl
    · refine ⟨⟨attrNeighbors, ?_⟩, ⟨attrNeighbors, ?_⟩⟩
      · unfold solve build_graphs
        rw [if_neg hg]
        rfl
      · unfold solve_with_custom_cycles build_graphs
        rw [if_neg hg]
        rfl
  · decide

end Oracle
